import Mathlib

/-!
# Weather Information Processing System (`FTA1_Yiling.cpp`)

A shallow embedding of the grid ingestion (`processCityData`), of menu option 1 of
`mainMenu` (configuration parsing, allocation, ingestion of the three data files and the
per-city aggregation loop) and of `convertToLMHSymbol`, followed by theorems about them.

Modelling conventions

* `std::string` is a list of characters; `find`, `substr` and `erase(remove_if ...)` are the
  list functions `find`, `List.take`, `List.drop` and `List.filter`.
* `int` is `Int`.  `stoi` enforces the 32-bit range (it throws `std::out_of_range`
  otherwise).  The remaining `int` arithmetic of the program is evaluated without wrap-around:
  signed overflow is undefined in C++, and the theorems that need it assume that the grid
  dimensions `gridXmax - gridXmin + 1` and `gridYmax - gridYmin + 1` are representable.
* `float` is IEEE 754 binary32 with round to nearest, ties to even: a `FloatVal` is the
  rational a finite float denotes, an infinity or NaN, and `roundFloat` gives the float an
  exact result is rounded to (subnormals and overflow included; the sign of a zero is not
  kept).  The members of a grid cell only ever receive `static_cast<float>(int)`, which is
  finite, and are kept as the rational they denote (`floatOfInt`); the sums and the averages
  of the aggregation are `FloatVal`s computed with the float addition and division.
* The globals `grid`, `gridXmin`, `gridXmax`, `gridYmin`, `gridYmax` and `cityDataMap` are the
  fields of `Globals`; a function that reads or writes them takes and returns a `Globals`.
* A call ends in an `Outcome`: it returns, it leaves through an exception (nothing in the
  program catches one, so the process terminates), or it accesses `grid[x][y]` outside the
  allocated array (undefined behaviour).  The lines written to `cerr` are collected.
-/

namespace Weather

/-- A `std::string`. -/
abbrev Str := List Char

/-- `INT_MAX` of `<climits>` for a 32-bit `int`. -/
def INT_MAX : Int := 2147483647

/-- `INT_MIN` of `<climits>` for a 32-bit `int`. -/
def INT_MIN : Int := -2147483648

/-- The exceptions the library calls of the program can throw. -/
inductive Exception where
  | invalidArgument
  | outOfRange
  | badArrayNewLength
  deriving DecidableEq, Repr

deriving instance DecidableEq for Except

/-- `s.find(c)`: the position of the first `c` in `s`; `none` is `string::npos`. -/
def find : Str → Char → Option Nat
  | [], _ => none
  | a :: t, c => if a = c then some 0 else (find t c).map (· + 1)

/-- `s.find(pat)` for a string pattern: the position of the first occurrence of `pat`. -/
def findStr : Str → Str → Option Nat
  | [], pat => if pat = [] then some 0 else none
  | a :: t, pat => if pat.isPrefixOf (a :: t) then some 0 else (findStr t pat).map (· + 1)

/-- `isspace` in the "C" locale, the white space `strtol` skips. -/
def isspace (c : Char) : Bool :=
  c = ' ' || c = '\t' || c = '\n' || c = '\x0b' || c = '\x0c' || c = '\r'

/-- The decimal digits of a digit string, most significant first, as a number. -/
def digitsValue (ds : List Char) : Nat :=
  ds.foldl (fun acc c => acc * 10 + (c.toNat - 48)) 0

/-- `std::stoi(s)` (base 10): skip white space, read an optional sign and the longest run
of digits; `invalid_argument` when there is no digit, `out_of_range` when the value does not
fit an `int`.  Characters after the digits are ignored. -/
def stoi (s : Str) : Except Exception Int :=
  let body := s.dropWhile isspace
  let signed : Bool × Str :=
    match body with
    | '-' :: t => (true, t)
    | '+' :: t => (false, t)
    | _ => (false, body)
  let ds := signed.2.takeWhile Char.isDigit
  if ds = [] then .error .invalidArgument
  else
    let v : Int := if signed.1 then -(digitsValue ds : Int) else (digitsValue ds : Int)
    if INT_MIN ≤ v ∧ v ≤ INT_MAX then .ok v else .error .outOfRange

/-- A `float` (IEEE 754 binary32): the rational a finite float denotes, an infinity or
NaN.  The float operations round their exact result with `roundFloat`. -/
inductive FloatVal where
  | finite (q : ℚ)
  | posInf
  | negInf
  | nan
  deriving DecidableEq

/-- The number of halvings that bring `n` below 2, at most `fuel` of them. -/
def halvings : Nat → Nat → Nat
  | 0, _ => 0
  | fuel + 1, n => if n < 2 then 0 else halvings fuel (n / 2) + 1

/-- The integer part of the binary logarithm of a positive natural number. -/
def log2Nat (n : Nat) : Nat := halvings n n

/-- The integer part of the binary logarithm of the positive rational `n / d`. -/
def floorLog2 (n d : Nat) : Int :=
  let e0 : Int := (log2Nat n : Int) - (log2Nat d : Int)
  if (if 0 ≤ e0 then d * 2 ^ e0.toNat ≤ n else d ≤ n * 2 ^ (-e0).toNat) then e0 else e0 - 1

/-- The integer nearest to `num / den`, the even one of the two when it lies half way. -/
def roundNearestEven (num den : Nat) : Nat :=
  if 2 * (num % den) < den then num / den
  else if den < 2 * (num % den) then num / den + 1
  else if (num / den) % 2 = 0 then num / den
  else num / den + 1

/-- The positive rational `n / d` rounded to 24 significant bits, with the exponent bounded
below by that of the subnormal floats (-126) and not bounded above. -/
def roundMagnitude (n d : Nat) : ℚ :=
  let shift : Int := 23 - max (floorLog2 n d) (-126)
  if 0 ≤ shift then
    (roundNearestEven (n * 2 ^ shift.toNat) d : ℚ) / ((2 : ℚ) ^ shift.toNat)
  else
    (roundNearestEven n (d * 2 ^ (-shift).toNat) : ℚ) * ((2 : ℚ) ^ (-shift).toNat)

/-- The binary32 float an exact result `q` is rounded to (round to nearest, ties to even);
a magnitude that rounds to `2 ^ 128` or more overflows to an infinity. -/
def roundFloat (q : ℚ) : FloatVal :=
  if q = 0 then .finite 0
  else if (2 : ℚ) ^ 128 ≤ roundMagnitude q.num.natAbs q.den then
    if 0 < q then .posInf else .negInf
  else if 0 < q then .finite (roundMagnitude q.num.natAbs q.den)
  else .finite (-roundMagnitude q.num.natAbs q.den)

/-- The conversion `static_cast<float>(v)` of an `int`: the float nearest to `v`, as the
rational it denotes (an `int` is far inside the finite range of binary32). -/
def floatOfInt (v : Int) : ℚ :=
  if v = 0 then 0
  else if 0 < v then roundMagnitude v.natAbs 1
  else -roundMagnitude v.natAbs 1

/-- The float addition `a + b`. -/
def FloatVal.add : FloatVal → FloatVal → FloatVal
  | .finite x, .finite y => roundFloat (x + y)
  | .nan, _ => .nan
  | _, .nan => .nan
  | .posInf, .negInf => .nan
  | .negInf, .posInf => .nan
  | .posInf, _ => .posInf
  | _, .posInf => .posInf
  | .negInf, _ => .negInf
  | _, .negInf => .negInf

/-- The float division `a / b` (a zero divisor is the positive zero). -/
def FloatVal.div : FloatVal → FloatVal → FloatVal
  | .nan, _ => .nan
  | _, .nan => .nan
  | .finite x, .finite y =>
    if y = 0 then
      if x = 0 then .nan else if 0 < x then .posInf else .negInf
    else roundFloat (x / y)
  | .finite _, _ => .finite 0
  | .posInf, .finite y => if 0 ≤ y then .posInf else .negInf
  | .negInf, .finite y => if 0 ≤ y then .negInf else .posInf
  | _, _ => .nan

/-- The float division `total / static_cast<float>(count)` of the aggregation step. -/
def fdiv (total : FloatVal) (count : Int) : FloatVal :=
  total.div (.finite (floatOfInt count))

/-- The float comparison `value < bound` against a finite bound; false for NaN. -/
def FloatVal.lt (value : FloatVal) (bound : ℚ) : Bool :=
  match value with
  | .finite q => decide (q < bound)
  | .posInf => false
  | .negInf => true
  | .nan => false

/-- The float comparison `value >= bound` against a finite bound; false for NaN. -/
def FloatVal.ge (value : FloatVal) (bound : ℚ) : Bool :=
  match value with
  | .finite q => decide (bound ≤ q)
  | .posInf => true
  | .negInf => false
  | .nan => false

/-- `struct CityData`. -/
structure CityData where
  lowerLeftCoord : Int × Int := (INT_MAX, INT_MAX)
  topRightCoord : Int × Int := (INT_MIN, INT_MIN)
  avgAtmosphericPressure : FloatVal := .finite 0
  avgCloudCover : FloatVal := .finite 0
  deriving DecidableEq

/-- `struct GridCellInfo` (data members; the static padding fields only serve printing).
The two `float` members only receive `static_cast<float>(int)`, a finite float, and hold the
rational it denotes. -/
structure GridCellInfo where
  isCity : Bool := false
  cityId : Int := -1
  atmosphericPressure : ℚ := 0
  cloudCover : ℚ := 0
  deriving DecidableEq

/-- The array behind `GridCellInfo** grid`: `grid[x]` is row `x`, `grid[x][y]` a cell. -/
abbrev Grid := List (List GridCellInfo)

/-- The global variables of the program. -/
structure Globals where
  grid : Grid := []
  gridXmin : Int := 0
  gridXmax : Int := 0
  gridYmin : Int := 0
  gridYmax : Int := 0
  cityDataMap : List (Int × CityData) := []
  deriving DecidableEq

/-- A line written to `cerr` by `processCityData`. -/
inductive ErrorLine where
  /-- The line "Error: Coordinates (x, y) are out of bounds." -/
  | outOfBounds (x y : Int)
  /-- The line "Error: Invalid city ID." -/
  | invalidCityId
  /-- The line "Error: Invalid city size." -/
  | invalidCitySize
  /-- The line "Error: Invalid atmospheric pressure value." -/
  | invalidValue
  deriving DecidableEq, Repr

/-- How a call ends. -/
inductive Outcome where
  /-- Normal return, with the globals and the lines written to `cerr`. -/
  | returned (g : Globals) (err : List ErrorLine)
  /-- An exception leaves the call (nothing catches it); the globals are as at the throw. -/
  | thrown (e : Exception) (g : Globals) (err : List ErrorLine)
  /-- The call accesses `grid[x][y]` outside the allocated array. -/
  | invalidAccess (x y : Int)
  deriving DecidableEq

/-- The cell `grid[x][y]`, when it lies inside the allocated array. -/
def Grid.cell (grid : Grid) (x y : Int) : Option GridCellInfo :=
  if 0 ≤ x ∧ 0 ≤ y then
    match grid.get? x.toNat with
    | some row => row.get? y.toNat
    | none => none
  else none

/-- The grid after an assignment to members of `grid[x][y]`; `none` outside the array. -/
def Grid.modifyCell (grid : Grid) (x y : Int) (f : GridCellInfo → GridCellInfo) :
    Option Grid :=
  match grid.cell x y with
  | some c => some (grid.set x.toNat ((grid.getD x.toNat []).set y.toNat (f c)))
  | none => none

/-- `cityDataMap.find(id)`: the entry of key `id`, if there is one. -/
def lookup (id : Int) : List (Int × CityData) → Option CityData
  | [] => none
  | (k, d) :: t => if k = id then some d else lookup id t

/-- The map after `cityDataMap[id] = d`; `std::map` keeps its entries in key order. -/
def assign (id : Int) (d : CityData) : List (Int × CityData) → List (Int × CityData)
  | [] => [(id, d)]
  | (k, e) :: t =>
    if id < k then (id, d) :: (k, e) :: t
    else if id = k then (id, d) :: t
    else (k, e) :: assign id d t

/-- The value `cityDataMap[id]` reads: the entry, or a value-initialised `CityData` that
`operator[]` inserts when the key is new. -/
def entry (id : Int) (m : List (Int × CityData)) : CityData :=
  (lookup id m).getD {}

/-- The result of the coordinate block of `processCityData` (lines 196-215). -/
inductive Coordinates where
  /-- A `stoi` of the block threw. -/
  | thrown (e : Exception)
  /-- The bounds check failed for the parsed pair: the function returns. -/
  | outOfBounds (x y : Int)
  /-- The function goes on with these values of `xPos`, `yPos`. -/
  | position (xPos yPos : Int)
  deriving DecidableEq, Repr

/-- The coordinate block of `processCityData` on the stripped text before the dash.
Without a comma the block is skipped and `xPos`, `yPos` keep their initial `-1`. -/
def extractCoordinates (g : Globals) (beforeDash : Str) : Coordinates :=
  match find beforeDash ',' with
  | none => .position (-1) (-1)
  | some commaPosition =>
    match stoi (beforeDash.take commaPosition) with
    | .error e => .thrown e
    | .ok xPos =>
      match stoi (beforeDash.drop (commaPosition + 1)) with
      | .error e => .thrown e
      | .ok yPos =>
        if xPos < g.gridXmin ∨ xPos > g.gridXmax ∨ yPos < g.gridYmin ∨ yPos > g.gridYmax then
          .outOfBounds xPos yPos
        else .position (xPos - g.gridXmin) (yPos - g.gridYmin)

/-- The text before the first dash with `' '`, `'['` and `']'` erased. -/
def coordinateText (line : Str) (dashPosition : Nat) : Str :=
  (line.take dashPosition).filter (fun c => !(c = ' ' || c = '[' || c = ']'))

/-- The text after the first dash (`afterDash`). -/
def payloadText (line : Str) (dashPosition : Nat) : Str :=
  line.drop (dashPosition + 1)

/-- The lines written to `cerr` by the city branch for a city id and a size label. -/
def cityErrors (cityID : Int) (afterHyphen : Str) : List ErrorLine :=
  (if cityID < 0 then [ErrorLine.invalidCityId] else []) ++
  (if afterHyphen = "Big_City".toList then []
   else if afterHyphen = "Mid_City".toList then []
   else if afterHyphen = "Small_City".toList then []
   else [ErrorLine.invalidCitySize])

/-- The bounding box update of the city branch: `lowerLeftCoord` becomes the minimum and
`topRightCoord` the maximum with `(xPos, yPos)`, per axis. -/
def extendBox (d : CityData) (xPos yPos : Int) : CityData :=
  { d with
    lowerLeftCoord := (min xPos d.lowerLeftCoord.1, min yPos d.lowerLeftCoord.2)
    topRightCoord := (max xPos d.topRightCoord.1, max yPos d.topRightCoord.2) }

/-- The payload block of `processCityData` (lines 217-280), run with the `xPos`, `yPos` the
coordinate block left. -/
def processPayload (afterDash : Str) (fileDataType : Int) (xPos yPos : Int) (g : Globals) :
    Outcome :=
  match find afterDash '-' with
  | some hyphenPosition =>
    match stoi (afterDash.take hyphenPosition) with
    | .error e => .thrown e g []
    | .ok cityID =>
      let err := cityErrors cityID (afterDash.drop (hyphenPosition + 1))
      match g.grid.modifyCell xPos yPos (fun c => { c with isCity := true, cityId := cityID }) with
      | none => .invalidAccess xPos yPos
      | some grid =>
        .returned
          { g with
            grid := grid
            cityDataMap := assign cityID (extendBox (entry cityID g.cityDataMap) xPos yPos)
              g.cityDataMap }
          err
  | none =>
    match stoi afterDash with
    | .error e => .thrown e g []
    | .ok gridValue =>
      let err := if gridValue < 0 ∨ gridValue > 100 then [ErrorLine.invalidValue] else []
      if fileDataType = 1 then
        match g.grid.modifyCell xPos yPos
            (fun c => { c with cloudCover := floatOfInt gridValue }) with
        | none => .invalidAccess xPos yPos
        | some grid => .returned { g with grid := grid } err
      else if fileDataType = 2 then
        match g.grid.modifyCell xPos yPos
            (fun c => { c with atmosphericPressure := floatOfInt gridValue }) with
        | none => .invalidAccess xPos yPos
        | some grid => .returned { g with grid := grid } err
      else .returned g err

/-- `processCityData(line, fileDataType)`. -/
def processCityData (line : Str) (fileDataType : Int) (g : Globals) : Outcome :=
  match find line '-' with
  | none => .returned g []
  | some dashPosition =>
    match extractCoordinates g (coordinateText line dashPosition) with
    | .thrown e => .thrown e g []
    | .outOfBounds x y => .returned g [.outOfBounds x y]
    | .position xPos yPos =>
      processPayload (payloadText line dashPosition) fileDataType xPos yPos g

/-- The outcome of a call that follows `err` already written to `cerr`. -/
def Outcome.after (err : List ErrorLine) : Outcome → Outcome
  | .returned g e => .returned g (err ++ e)
  | .thrown x g e => .thrown x g (err ++ e)
  | .invalidAccess x y => .invalidAccess x y

/-- Sequencing: `next` runs on the globals `o` returned; an exception or an invalid access
ends the run. -/
def Outcome.andThen (o : Outcome) (next : Globals → Outcome) : Outcome :=
  match o with
  | .returned g err => (next g).after err
  | .thrown x g err => .thrown x g err
  | .invalidAccess x y => .invalidAccess x y

/-- The loop `while (getline(file, line)) processCityData(line, fileDataType);`. -/
def processLines (fileDataType : Int) : List Str → Globals → Outcome
  | [], g => .returned g []
  | line :: rest, g =>
    (processCityData line fileDataType g).andThen (processLines fileDataType rest)

/-- The files the program can open: a path gives the lines of the file, or `none` when the
file cannot be opened. -/
abbrev Files := Str → Option (List Str)

/-- `city_Location(filename)`. -/
def city_Location (files : Files) (filename : Str) (g : Globals) : Outcome :=
  match files filename with
  | none => .returned g []
  | some lines => processLines 0 lines g

/-- `cloud_Coverage(filename)`. -/
def cloud_Coverage (files : Files) (filename : Str) (g : Globals) : Outcome :=
  match files filename with
  | none => .returned g []
  | some lines => processLines 1 lines g

/-- `pressure_File(filename)`. -/
def pressure_File (files : Files) (filename : Str) (g : Globals) : Outcome :=
  match files filename with
  | none => .returned g []
  | some lines => processLines 2 lines g

/-- The body of the range loop of `mainMenu` (lines 385-409) for one configuration line.
`afterEqual.find('-')` is not tested against `npos`: without a dash `substr(0, npos)` and
`substr(npos + 1)` are both the whole of `afterEqual`. -/
def parseRangeLine (line : Str) (g : Globals) : Outcome :=
  if findStr line "Grid".toList = some 0 then
    match find line '=' with
    | none => .returned g []
    | some equalPosition =>
      let beforeEqual := line.take equalPosition
      let afterEqual := line.drop (equalPosition + 1)
      let beforeDash :=
        match find afterEqual '-' with
        | some dashPosition => afterEqual.take dashPosition
        | none => afterEqual
      let afterDash :=
        match find afterEqual '-' with
        | some dashPosition => afterEqual.drop (dashPosition + 1)
        | none => afterEqual
      match stoi beforeDash with
      | .error e => .thrown e g []
      | .ok min =>
        match stoi afterDash with
        | .error e => .thrown e g []
        | .ok max =>
          if beforeEqual = "GridX_IdxRange".toList then
            .returned { g with gridXmin := min, gridXmax := max } []
          else if beforeEqual = "GridY_IdxRange".toList then
            .returned { g with gridYmin := min, gridYmax := max } []
          else .returned g []
  else .returned g []

/-- The range loop of `mainMenu` over the lines of the configuration file. -/
def parseRanges : List Str → Globals → Outcome
  | [], g => .returned g []
  | line :: rest, g => (parseRangeLine line g).andThen (parseRanges rest)

/-- The three local path variables of option 1. -/
structure FilePaths where
  citylocFilePath : Str := []
  cloudcoverageFilePath : Str := []
  pressureFilePath : Str := []
  deriving DecidableEq, Repr

/-- The path loop of `mainMenu` (lines 422-437): a line that contains one of the three file
names becomes the corresponding path. -/
def parsePaths : List Str → FilePaths → FilePaths
  | [], p => p
  | line :: rest, p =>
    if findStr line "citylocation.txt".toList ≠ none then
      parsePaths rest { p with citylocFilePath := line }
    else if findStr line "cloudcover.txt".toList ≠ none then
      parsePaths rest { p with cloudcoverageFilePath := line }
    else if findStr line "pressure.txt".toList ≠ none then
      parsePaths rest { p with pressureFilePath := line }
    else parsePaths rest p

/-- `allocateMemory(colSize, rowSize)`: `rowSize` rows of `colSize` default-initialised
cells.  A negative length makes `new[]` throw `std::bad_array_new_length`; the rows are only
allocated when there is one.  Memory is assumed sufficient. -/
def allocateMemory (colSize rowSize : Int) : Except Exception Grid :=
  if rowSize < 0 then .error .badArrayNewLength
  else if rowSize = 0 then .ok []
  else if colSize < 0 then .error .badArrayNewLength
  else .ok (List.replicate rowSize.toNat (List.replicate colSize.toNat {}))

/-- The values `lo, lo + 1, ..., hi` a loop `for (int v = lo; v <= hi; v++)` runs through. -/
def loopValues (lo hi : Int) : List Int :=
  (List.range (hi + 1 - lo).toNat).map (fun (i : Nat) => lo + (i : Int))

/-- The indices `(x, y)` of the cells the aggregation loops of `mainMenu` (lines 484-492)
read for a city, in the order they are read. -/
def scanCells (g : Globals) (data : CityData) : List (Int × Int) :=
  (loopValues (max (data.lowerLeftCoord.1 - 1) g.gridXmin - g.gridXmin)
      (min (data.topRightCoord.1 + 1) g.gridXmax - g.gridXmin)).flatMap fun x =>
    (loopValues (max (data.lowerLeftCoord.2 - 1) g.gridYmin - g.gridYmin)
      (min (data.topRightCoord.2 + 1) g.gridYmax - g.gridYmin)).map fun y => (x, y)

/-- The three accumulators of the aggregation loop. -/
structure Totals where
  totalAtmosphericPressure : FloatVal := .finite 0
  totalCloudCover : FloatVal := .finite 0
  totalCells : Int := 0
  deriving DecidableEq

/-- The loop body (lines 488-490) run over the cells to read; an index outside the
allocated array ends the run. -/
def accumulate (grid : Grid) : List (Int × Int) → Totals → Except (Int × Int) Totals
  | [], t => .ok t
  | (x, y) :: rest, t =>
    match grid.cell x y with
    | none => .error (x, y)
    | some c =>
      accumulate grid rest
        { totalAtmosphericPressure :=
            t.totalAtmosphericPressure.add (.finite c.atmosphericPressure)
          totalCloudCover := t.totalCloudCover.add (.finite c.cloudCover)
          totalCells := t.totalCells + 1 }

/-- One iteration of the aggregation loop of `mainMenu` (lines 476-496): the entry `data`
with its two averages recomputed.  There is no test of `totalCells` before the division. -/
def aggregateCity (g : Globals) (data : CityData) : Except (Int × Int) CityData :=
  match accumulate g.grid (scanCells g data) {} with
  | .error p => .error p
  | .ok t =>
    .ok { data with
          avgAtmosphericPressure := fdiv t.totalAtmosphericPressure t.totalCells
          avgCloudCover := fdiv t.totalCloudCover t.totalCells }

/-- The aggregation loop over the entries of `cityDataMap`, in key order.  The assignment
`cityDataMap[cityId] = data` writes the entry the iterator is at, so every entry keeps its
key and receives its recomputed value. -/
def aggregateEntries (g : Globals) :
    List (Int × CityData) → Except (Int × Int) (List (Int × CityData))
  | [] => .ok []
  | (cityId, data) :: rest =>
    match aggregateCity g data with
    | .error p => .error p
    | .ok d =>
      match aggregateEntries g rest with
      | .error p => .error p
      | .ok m => .ok ((cityId, d) :: m)

/-- The aggregation step of option 1 (lines 474-500). -/
def aggregate (g : Globals) : Outcome :=
  match aggregateEntries g g.cityDataMap with
  | .error p => .invalidAccess p.1 p.2
  | .ok m => .returned { g with cityDataMap := m } []

/-- The ingestion of option 1 (lines 454-470): each data file whose path was found. -/
def ingest (files : Files) (paths : FilePaths) (g : Globals) : Outcome :=
  ((if paths.citylocFilePath.length = 0 then Outcome.returned g []
    else city_Location files paths.citylocFilePath g).andThen fun g1 =>
    if paths.cloudcoverageFilePath.length = 0 then Outcome.returned g1 []
    else cloud_Coverage files paths.cloudcoverageFilePath g1).andThen fun g2 =>
    if paths.pressureFilePath.length = 0 then Outcome.returned g2 []
    else pressure_File files paths.pressureFilePath g2

/-- Option 1 of `mainMenu` (lines 365-504) for the entered file name, run on the globals as
they are when the option is chosen: parse the ranges, collect the paths, allocate the grid,
ingest the three files, aggregate.  Nothing else is assigned to the globals; in particular
`cityDataMap` is not cleared and the previous array is not released. -/
def optionOne (files : Files) (fileName : Str) (g : Globals) : Outcome :=
  match files fileName with
  | none => .returned g []
  | some config =>
    (parseRanges config g).andThen fun g1 =>
      let paths := parsePaths config {}
      let rowSize := (g1.gridXmax - g1.gridXmin) + 1
      let colSize := (g1.gridYmax - g1.gridYmin) + 1
      match allocateMemory colSize rowSize with
      | .error e => .thrown e g1 []
      | .ok grid => (ingest files paths { g1 with grid := grid }).andThen aggregate

/-- `convertToLMHSymbol(value)`. -/
def convertToLMHSymbol (value : FloatVal) : Char :=
  if value.lt 35 then 'L'
  else if value.lt 65 then 'M'
  else 'H'

/-- `rainchance(acc, ap)`: the rain probability for the symbol `acc` of the average cloud
cover and the symbol `ap` of the average pressure. -/
def rainchance (acc ap : Char) : Int :=
  if ap = 'L' ∧ acc = 'H' then 90
  else if ap = 'L' ∧ acc = 'M' then 80
  else if ap = 'L' ∧ acc = 'L' then 70
  else if ap = 'M' ∧ acc = 'H' then 60
  else if ap = 'M' ∧ acc = 'M' then 50
  else if ap = 'M' ∧ acc = 'L' then 40
  else if ap = 'H' ∧ acc = 'H' then 30
  else if ap = 'H' ∧ acc = 'M' then 20
  else if ap = 'H' ∧ acc = 'L' then 10
  else 0

/-- The globals a call returned, if it returned. -/
def Outcome.globals : Outcome → Option Globals
  | .returned g _ => some g
  | _ => none

/-- The outcome of a call without the lines written to `cerr`: what the call did to the
state of the program. -/
def Outcome.withoutErr : Outcome → Outcome
  | .returned g _ => .returned g []
  | .thrown e g _ => .thrown e g []
  | .invalidAccess x y => .invalidAccess x y

/-- The city registry a call returned, if it returned. -/
def Outcome.registry : Outcome → Option (List (Int × CityData))
  | .returned g _ => some g.cityDataMap
  | _ => none

/-- The array is the one option 1 allocates for the ranges of `g`: `gridXmax - gridXmin + 1`
rows of `gridYmax - gridYmin + 1` cells, both lengths being representable `int`s. -/
def Globals.Allocated (g : Globals) : Prop :=
  g.gridXmax - g.gridXmin + 1 ≤ INT_MAX ∧ g.gridYmax - g.gridYmin + 1 ≤ INT_MAX ∧
  g.grid.length = (g.gridXmax - g.gridXmin + 1).toNat ∧
  ∀ row ∈ g.grid, row.length = (g.gridYmax - g.gridYmin + 1).toNat

instance (g : Globals) : Decidable g.Allocated := by
  unfold Globals.Allocated; infer_instance

/-- The record `processCityData` reads from `line` when the line has the shape
`[x,y]-id-label` with `(x, y)` inside the ranges of `g`: the city id and the normalised
position `(x - gridXmin, y - gridYmin)`. -/
def readCityRecord (g : Globals) (line : Str) : Option (Int × Int × Int) :=
  match find line '-' with
  | none => none
  | some dashPosition =>
    match find (coordinateText line dashPosition) ',' with
    | none => none
    | some _ =>
      match extractCoordinates g (coordinateText line dashPosition) with
      | .position xPos yPos =>
        match find (payloadText line dashPosition) '-' with
        | none => none
        | some hyphenPosition =>
          match stoi ((payloadText line dashPosition).take hyphenPosition) with
          | .ok cityID => some (cityID, xPos, yPos)
          | .error _ => none
      | _ => none

/-- Every city of the registry has a registered cell: a cell of the grid, in normalised
coordinates, that lies in the bounding box of the city. -/
def Globals.CitiesHaveCell (g : Globals) : Prop :=
  ∀ c ∈ g.cityDataMap, ∃ cx cy : Int,
    0 ≤ cx ∧ cx ≤ g.gridXmax - g.gridXmin ∧ 0 ≤ cy ∧ cy ≤ g.gridYmax - g.gridYmin ∧
    c.2.lowerLeftCoord.1 ≤ cx ∧ cx ≤ c.2.topRightCoord.1 ∧
    c.2.lowerLeftCoord.2 ≤ cy ∧ cy ≤ c.2.topRightCoord.2

/-- The decimal digits of `n` put in front of `text`, least significant digit first into
the accumulator; `fuel` bounds the number of digits. -/
def decimalDigits : Nat → Nat → Str → Str
  | 0, _, text => text
  | fuel + 1, n, text =>
    if n / 10 = 0 then Nat.digitChar (n % 10) :: text
    else decimalDigits fuel (n / 10) (Nat.digitChar (n % 10) :: text)

/-- The decimal text of a natural number, as it is written in a file (`0`, `7`, `42`). -/
def natText (n : Nat) : Str := decimalDigits (n + 1) n []

/-- The decimal text of an integer: a minus sign in front of a negative value. -/
def intText : Int → Str
  | .ofNat n => natText n
  | .negSucc n => '-' :: natText (n + 1)

/-- The value `m` is the least element of `l`. -/
def IsMinimumOf (m : Int) (l : List Int) : Prop := m ∈ l ∧ ∀ v ∈ l, m ≤ v

/-- The value `m` is the greatest element of `l`. -/
def IsMaximumOf (m : Int) (l : List Int) : Prop := m ∈ l ∧ ∀ v ∈ l, v ≤ m

/-- The globals with ranges `0-4` on both axes and a freshly allocated 5 x 5 array. -/
def grid5 : Globals :=
  { grid := List.replicate 5 (List.replicate 5 {}), gridXmax := 4, gridYmax := 4 }

/-- The scenario of the specification: ranges `0-4`, one city cell `[2,2]` of city 7 and
nine pressure records around it. -/
def scenarioFiles : Files := fun path =>
  if path = "config.txt".toList then
    some ["GridX_IdxRange=0-4".toList, "GridY_IdxRange=0-4".toList,
      "citylocation.txt".toList, "cloudcover.txt".toList, "pressure.txt".toList]
  else if path = "citylocation.txt".toList then some ["[2,2]-7-Mid_City".toList]
  else if path = "cloudcover.txt".toList then some []
  else if path = "pressure.txt".toList then
    some ["[2,2]-50".toList, "[1,2]-60".toList, "[3,2]-40".toList, "[2,1]-50".toList,
      "[2,3]-50".toList, "[1,1]-0".toList, "[3,3]-0".toList, "[1,3]-0".toList,
      "[3,1]-0".toList]
  else none

/-- A configuration whose ranges do not start at 0: ranges `5-9`, one city cell `[7,7]` of
city 1 with pressure 50 and cloud cover 80. -/
def shiftedFiles : Files := fun path =>
  if path = "config.txt".toList then
    some ["GridX_IdxRange=5-9".toList, "GridY_IdxRange=5-9".toList,
      "citylocation.txt".toList, "cloudcover.txt".toList, "pressure.txt".toList]
  else if path = "citylocation.txt".toList then some ["[7,7]-1-Big_City".toList]
  else if path = "cloudcover.txt".toList then some ["[7,7]-80".toList]
  else if path = "pressure.txt".toList then some ["[7,7]-50".toList]
  else none

/-- The globals with ranges `5-9` on both axes and a freshly allocated 5 x 5 array. -/
def grid59 : Globals :=
  { grid := List.replicate 5 (List.replicate 5 {})
    gridXmin := 5, gridXmax := 9, gridYmin := 5, gridYmax := 9 }

/-- Two configurations for two successive loads: `first.txt` (ranges `0-4`, city 9 at
`[4,4]`) and `second.txt` (ranges `0-1`, city 7 at `[0,0]`). -/
def reloadFiles : Files := fun path =>
  if path = "first.txt".toList then
    some ["GridX_IdxRange=0-4".toList, "GridY_IdxRange=0-4".toList,
      "a_citylocation.txt".toList]
  else if path = "a_citylocation.txt".toList then some ["[4,4]-9-Big_City".toList]
  else if path = "second.txt".toList then
    some ["GridX_IdxRange=0-1".toList, "GridY_IdxRange=0-1".toList,
      "b_citylocation.txt".toList]
  else if path = "b_citylocation.txt".toList then some ["[0,0]-7-Small_City".toList]
  else none

/-! ## Theorems -/

set_option maxRecDepth 100000

/-! ### Sequencing -/

theorem Outcome.after_nil (o : Outcome) : o.after [] = o := by
  cases o <;> simp [Outcome.after]

theorem processLines_cons_thrown (fileDataType : Int) (line : Str) (rest : List Str)
    (g g1 : Globals) (e : Exception) (err : List ErrorLine)
    (h : processCityData line fileDataType g = .thrown e g1 err) :
    processLines fileDataType (line :: rest) g = .thrown e g1 err := by
  simp [processLines, h, Outcome.andThen]

/-! ### The coordinate block -/

theorem extractCoordinates_of_parsed (g : Globals) (beforeDash : Str) (commaPosition : Nat)
    (x y : Int) (hcomma : find beforeDash ',' = some commaPosition)
    (hx : stoi (beforeDash.take commaPosition) = .ok x)
    (hy : stoi (beforeDash.drop (commaPosition + 1)) = .ok y) :
    extractCoordinates g beforeDash =
      if x < g.gridXmin ∨ x > g.gridXmax ∨ y < g.gridYmin ∨ y > g.gridYmax then
        .outOfBounds x y
      else .position (x - g.gridXmin) (y - g.gridYmin) := by
  simp only [extractCoordinates, hcomma, hx, hy]

theorem stoi_error (s : Str) (e : Exception) (h : stoi s = .error e) :
    e = .invalidArgument ∨ e = .outOfRange := by
  unfold stoi at h
  simp only at h
  repeat' split at h
  all_goals first
    | (cases h; first | exact Or.inl rfl | exact Or.inr rfl)
    | cases h

/-- The payload block only throws what `stoi` throws, with the globals it was given and
nothing written to `cerr`. -/
theorem processPayload_thrown (afterDash : Str) (fileDataType xPos yPos : Int)
    (g g1 : Globals) (e : Exception) (err : List ErrorLine)
    (h : processPayload afterDash fileDataType xPos yPos g = .thrown e g1 err) :
    (e = .invalidArgument ∨ e = .outOfRange) ∧ g1 = g ∧ err = [] := by
  unfold processPayload at h
  repeat' split at h
  all_goals first
    | (cases h; exact ⟨stoi_error _ _ (by assumption), rfl, rfl⟩)
    | cases h

theorem extractCoordinates_thrown (g : Globals) (beforeDash : Str) (e : Exception)
    (h : extractCoordinates g beforeDash = .thrown e) :
    e = .invalidArgument ∨ e = .outOfRange := by
  unfold extractCoordinates at h
  repeat' split at h
  all_goals first
    | (cases h; exact stoi_error _ _ (by assumption))
    | cases h

theorem processCityData_thrown (line : Str) (fileDataType : Int) (g g1 : Globals)
    (e : Exception) (err : List ErrorLine)
    (h : processCityData line fileDataType g = .thrown e g1 err) :
    (e = .invalidArgument ∨ e = .outOfRange) ∧ g1 = g ∧ err = [] := by
  unfold processCityData at h
  split at h
  · cases h
  · split at h
    · cases h; exact ⟨extractCoordinates_thrown _ _ _ (by assumption), rfl, rfl⟩
    · cases h
    · exact processPayload_thrown _ _ _ _ _ _ _ _ h

/-! ### The grid array -/

theorem Grid.cell_of_lengths (grid : Grid) (rows cols : Nat) (x y : Int)
    (hrows : grid.length = rows) (hcols : ∀ row ∈ grid, row.length = cols)
    (hx0 : 0 ≤ x) (hx : x.toNat < rows) (hy0 : 0 ≤ y) (hy : y.toNat < cols) :
    ∃ c, grid.cell x y = some c := by
  have hxl : x.toNat < grid.length := by omega
  have hlen : (grid[x.toNat]).length = cols := hcols _ (List.getElem_mem hxl)
  have hyl : y.toNat < (grid[x.toNat]).length := by omega
  refine ⟨(grid[x.toNat])[y.toNat], ?_⟩
  simp [Grid.cell, hx0, hy0, List.getElem?_eq_getElem hxl, List.getElem?_eq_getElem hyl]

theorem Grid.cell_nonneg (grid : Grid) (x y : Int) (c : GridCellInfo)
    (h : grid.cell x y = some c) : 0 ≤ x ∧ 0 ≤ y := by
  unfold Grid.cell at h
  split at h
  · assumption
  · cases h

theorem Grid.modifyCell_nonneg (grid grid1 : Grid) (x y : Int)
    (f : GridCellInfo → GridCellInfo) (h : grid.modifyCell x y f = some grid1) :
    0 ≤ x ∧ 0 ≤ y := by
  unfold Grid.modifyCell at h
  split at h
  · exact Grid.cell_nonneg grid x y _ (by assumption)
  · cases h

theorem Grid.modifyCell_lengths (grid grid1 : Grid) (x y : Int)
    (f : GridCellInfo → GridCellInfo) (cols : Nat)
    (hcols : ∀ row ∈ grid, row.length = cols)
    (h : grid.modifyCell x y f = some grid1) :
    grid1.length = grid.length ∧ ∀ row ∈ grid1, row.length = cols := by
  unfold Grid.modifyCell at h
  split at h
  · cases h
    refine ⟨by simp, ?_⟩
    intro row hrow
    rcases List.mem_or_eq_of_mem_set hrow with hmem | heq
    · exact hcols row hmem
    · subst heq
      rw [List.length_set]
      by_cases hlt : x.toNat < grid.length
      · rw [List.getD_eq_getElem _ _ hlt]
        exact hcols _ (List.getElem_mem hlt)
      · rename_i c hc
        exfalso
        unfold Grid.cell at hc
        split at hc
        · rw [List.get?_eq_none.mpr (by omega)] at hc
          cases hc
        · cases hc
  · cases h

theorem Grid.cell_modifyCell_self (grid grid1 : Grid) (x y : Int)
    (f : GridCellInfo → GridCellInfo) (h : grid.modifyCell x y f = some grid1) :
    ∃ c, grid.cell x y = some c ∧ grid1.cell x y = some (f c) := by
  unfold Grid.modifyCell at h
  split at h
  · rename_i c hc
    cases h
    refine ⟨c, hc, ?_⟩
    unfold Grid.cell at hc ⊢
    split at hc
    · rename_i hxy
      rw [if_pos hxy]
      split at hc
      · rename_i row hrow
        have hx : x.toNat < grid.length := by
          by_contra hge
          rw [List.get?_eq_none.mpr (by omega)] at hrow
          cases hrow
        have hy : y.toNat < row.length := by
          by_contra hge
          rw [List.get?_eq_none.mpr (by omega)] at hc
          cases hc
        have hrow2 : grid.getD x.toNat [] = row := by
          rw [List.get?_eq_getElem?, List.getElem?_eq_getElem hx] at hrow
          rw [List.getD_eq_getElem _ _ hx]
          exact Option.some.inj hrow
        rw [hrow2]
        simp [List.getElem?_set, hx, hy]
      · cases hc
    · cases hc
  · cases h

/-! ### The city registry -/

theorem lookup_assign_self (id : Int) (d : CityData) (m : List (Int × CityData)) :
    lookup id (assign id d m) = some d := by
  induction m with
  | nil => simp [assign, lookup]
  | cons c t ih =>
    obtain ⟨k, e⟩ := c
    unfold assign
    split
    · simp [lookup]
    · split
      · simp [lookup]
      · have hne : ¬ k = id := fun h => by omega
        simp [lookup, hne, ih]

theorem mem_assign (id : Int) (d : CityData) (m : List (Int × CityData))
    (c : Int × CityData) (h : c ∈ assign id d m) : c = (id, d) ∨ c ∈ m := by
  induction m with
  | nil => simpa [assign] using h
  | cons a t ih =>
    obtain ⟨k, e⟩ := a
    unfold assign at h
    split at h
    · rcases List.mem_cons.mp h with h1 | h1
      · exact Or.inl h1
      · exact Or.inr h1
    · split at h
      · rcases List.mem_cons.mp h with h1 | h1
        · exact Or.inl h1
        · exact Or.inr (List.mem_cons_of_mem _ h1)
      · rcases List.mem_cons.mp h with h1 | h1
        · exact Or.inr (h1 ▸ List.mem_cons_self _ _)
        · rcases ih h1 with h2 | h2
          · exact Or.inl h2
          · exact Or.inr (List.mem_cons_of_mem _ h2)

theorem entry_of_lookup (id : Int) (d : CityData) (m : List (Int × CityData))
    (h : lookup id m = some d) : entry id m = d := by
  simp [entry, h]

/-! ### The coordinate block, continued -/

theorem extractCoordinates_position (g : Globals) (beforeDash : Str) (xPos yPos : Int)
    (h : extractCoordinates g beforeDash = .position xPos yPos) :
    (xPos = -1 ∧ yPos = -1) ∨
    (0 ≤ xPos ∧ xPos ≤ g.gridXmax - g.gridXmin ∧ 0 ≤ yPos ∧ yPos ≤ g.gridYmax - g.gridYmin) := by
  unfold extractCoordinates at h
  repeat' split at h
  all_goals first
    | (cases h; exact Or.inl ⟨rfl, rfl⟩)
    | (cases h; right; rename_i hin; omega)
    | cases h

theorem extractCoordinates_congr (g g1 : Globals) (beforeDash : Str)
    (hx0 : g1.gridXmin = g.gridXmin) (hx1 : g1.gridXmax = g.gridXmax)
    (hy0 : g1.gridYmin = g.gridYmin) (hy1 : g1.gridYmax = g.gridYmax) :
    extractCoordinates g1 beforeDash = extractCoordinates g beforeDash := by
  simp only [extractCoordinates, hx0, hx1, hy0, hy1]

theorem readCityRecord_congr (g g1 : Globals) (line : Str)
    (hx0 : g1.gridXmin = g.gridXmin) (hx1 : g1.gridXmax = g.gridXmax)
    (hy0 : g1.gridYmin = g.gridYmin) (hy1 : g1.gridYmax = g.gridYmax) :
    readCityRecord g1 line = readCityRecord g line := by
  simp only [readCityRecord, extractCoordinates_congr g g1 _ hx0 hx1 hy0 hy1]

/-! ### City records -/

theorem Globals.allocated_of_grid (g : Globals) (grid : Grid)
    (m : List (Int × CityData)) (halloc : g.Allocated)
    (hlen : grid.length = g.grid.length)
    (hcols : ∀ row ∈ grid, row.length = (g.gridYmax - g.gridYmin + 1).toNat) :
    Globals.Allocated { g with grid := grid, cityDataMap := m } := by
  obtain ⟨h1, h2, h3, _⟩ := halloc
  exact ⟨h1, h2, hlen.trans h3, hcols⟩

theorem Globals.cell_of_allocated (g : Globals) (xPos yPos : Int) (halloc : g.Allocated)
    (hx0 : 0 ≤ xPos) (hx : xPos ≤ g.gridXmax - g.gridXmin)
    (hy0 : 0 ≤ yPos) (hy : yPos ≤ g.gridYmax - g.gridYmin) :
    ∃ c, g.grid.cell xPos yPos = some c := by
  obtain ⟨_, _, h3, h4⟩ := halloc
  exact Grid.cell_of_lengths g.grid _ _ xPos yPos h3 h4 hx0 (by omega) hy0 (by omega)

/-- What `processCityData` does with a line it reads as an in-bounds city record. -/
theorem processCityData_cityRecord (g : Globals) (line : Str) (fileDataType : Int)
    (cityID xPos yPos : Int) (halloc : g.Allocated)
    (h : readCityRecord g line = some (cityID, xPos, yPos)) :
    (0 ≤ xPos ∧ xPos ≤ g.gridXmax - g.gridXmin ∧ 0 ≤ yPos ∧ yPos ≤ g.gridYmax - g.gridYmin) ∧
    ∃ g1 err, processCityData line fileDataType g = .returned g1 err ∧ g1.Allocated ∧
      g1.gridXmin = g.gridXmin ∧ g1.gridXmax = g.gridXmax ∧
      g1.gridYmin = g.gridYmin ∧ g1.gridYmax = g.gridYmax ∧
      g1.cityDataMap =
        assign cityID (extendBox (entry cityID g.cityDataMap) xPos yPos) g.cityDataMap := by
  unfold readCityRecord at h
  split at h
  · cases h
  rename_i dashPosition hdash
  split at h
  · cases h
  rename_i commaPosition hcomma
  split at h
  swap
  · cases h
  rename_i x y hcoord
  split at h
  · cases h
  rename_i hyphenPosition hhyphen
  split at h
  swap
  · cases h
  rename_i id hid
  cases h
  have hin : 0 ≤ xPos ∧ xPos ≤ g.gridXmax - g.gridXmin ∧ 0 ≤ yPos ∧
      yPos ≤ g.gridYmax - g.gridYmin := by
    unfold extractCoordinates at hcoord
    rw [hcomma] at hcoord
    simp only at hcoord
    repeat' split at hcoord
    all_goals first
      | (cases hcoord; rename_i hb; omega)
      | cases hcoord
  refine ⟨hin, ?_⟩
  obtain ⟨c, hc⟩ := Globals.cell_of_allocated g xPos yPos halloc hin.1 hin.2.1 hin.2.2.1 hin.2.2.2
  have hmod : g.grid.modifyCell xPos yPos
      (fun c => { c with isCity := true, cityId := cityID }) =
      some (g.grid.set xPos.toNat ((g.grid.getD xPos.toNat []).set yPos.toNat
        { c with isCity := true, cityId := cityID })) := by
    simp [Grid.modifyCell, hc]
  obtain ⟨hlen, hcols⟩ := Grid.modifyCell_lengths g.grid _ xPos yPos _ _ halloc.2.2.2 hmod
  refine ⟨_, cityErrors cityID ((payloadText line dashPosition).drop (hyphenPosition + 1)),
    ?_, Globals.allocated_of_grid g _ _ halloc hlen hcols, rfl, rfl, rfl, rfl, rfl⟩
  simp only [processCityData, hdash, hcoord, processPayload, hhyphen, hid, hmod]

/-! ### Runs over the lines of a file -/

theorem processLines_cons_returned (fileDataType : Int) (line : Str) (rest : List Str)
    (g g1 g2 : Globals) (err1 err2 : List ErrorLine)
    (h1 : processCityData line fileDataType g = .returned g1 err1)
    (h2 : processLines fileDataType rest g1 = .returned g2 err2) :
    processLines fileDataType (line :: rest) g = .returned g2 (err1 ++ err2) := by
  simp [processLines, h1, h2, Outcome.andThen, Outcome.after]

theorem processLines_cityRecords (fileDataType cityID : Int) :
    ∀ (recs : List (Str × Int × Int)) (g : Globals), g.Allocated →
      (∀ r ∈ recs, readCityRecord g r.1 = some (cityID, r.2.1, r.2.2)) →
      ∃ g1 err, processLines fileDataType (recs.map (·.1)) g = .returned g1 err ∧
        g1.Allocated ∧
        g1.gridXmin = g.gridXmin ∧ g1.gridXmax = g.gridXmax ∧
        g1.gridYmin = g.gridYmin ∧ g1.gridYmax = g.gridYmax ∧
        entry cityID g1.cityDataMap =
          recs.foldl (fun d r => extendBox d r.2.1 r.2.2) (entry cityID g.cityDataMap) ∧
        (recs ≠ [] ∨ lookup cityID g.cityDataMap = some (entry cityID g.cityDataMap) →
          lookup cityID g1.cityDataMap = some (entry cityID g1.cityDataMap)) := by
  intro recs
  induction recs with
  | nil =>
    intro g halloc _
    exact ⟨g, [], rfl, halloc, rfl, rfl, rfl, rfl, rfl, fun h => h.resolve_left (by simp)⟩
  | cons r rest ih =>
    intro g halloc hrec
    obtain ⟨_, g2, err2, hstep, halloc2, hx0, hx1, hy0, hy1, hmap⟩ :=
      processCityData_cityRecord g r.1 fileDataType cityID r.2.1 r.2.2 halloc
        (hrec r (List.mem_cons_self _ _))
    have hlook : lookup cityID g2.cityDataMap =
        some (extendBox (entry cityID g.cityDataMap) r.2.1 r.2.2) := by
      rw [hmap]; exact lookup_assign_self _ _ _
    have hentry := entry_of_lookup _ _ _ hlook
    obtain ⟨g1, err1, hrun, halloc1, kx0, kx1, ky0, ky1, hfold, hsome⟩ :=
      ih g2 halloc2 (fun q hq => by
        rw [readCityRecord_congr g g2 q.1 hx0 hx1 hy0 hy1]
        exact hrec q (List.mem_cons_of_mem _ hq))
    refine ⟨g1, err2 ++ err1, ?_, halloc1, kx0.trans hx0, kx1.trans hx1, ky0.trans hy0,
      ky1.trans hy1, ?_, fun _ => hsome (Or.inr (by rw [hlook, hentry]))⟩
    · exact processLines_cons_returned fileDataType r.1 _ g g2 g1 err2 err1 hstep hrun
    · rw [hfold, hentry]; rfl

/-! ### Minimum and maximum accumulation -/

theorem foldl_min_spec (vs : List Int) :
    ∀ init : Int, vs.foldl (fun m v => min v m) init ≤ init ∧
      (∀ v ∈ vs, vs.foldl (fun m v => min v m) init ≤ v) ∧
      (vs.foldl (fun m v => min v m) init = init ∨
        vs.foldl (fun m v => min v m) init ∈ vs) := by
  induction vs with
  | nil => intro init; simp
  | cons a t ih =>
    intro init
    obtain ⟨h1, h2, h3⟩ := ih (min a init)
    simp only [List.foldl_cons, List.mem_cons]
    refine ⟨by omega, ?_, ?_⟩
    · intro v hv
      rcases hv with hv | hv
      · subst hv; omega
      · exact h2 v hv
    · rcases h3 with h3 | h3
      · rcases le_total a init with hle | hle
        · right; left; rw [h3]; omega
        · left; rw [h3]; omega
      · exact Or.inr (Or.inr h3)

theorem foldl_max_spec (vs : List Int) :
    ∀ init : Int, init ≤ vs.foldl (fun m v => max v m) init ∧
      (∀ v ∈ vs, v ≤ vs.foldl (fun m v => max v m) init) ∧
      (vs.foldl (fun m v => max v m) init = init ∨
        vs.foldl (fun m v => max v m) init ∈ vs) := by
  induction vs with
  | nil => intro init; simp
  | cons a t ih =>
    intro init
    obtain ⟨h1, h2, h3⟩ := ih (max a init)
    simp only [List.foldl_cons, List.mem_cons]
    refine ⟨by omega, ?_, ?_⟩
    · intro v hv
      rcases hv with hv | hv
      · subst hv; omega
      · exact h2 v hv
    · rcases h3 with h3 | h3
      · rcases le_total a init with hle | hle
        · left; rw [h3]; omega
        · right; left; rw [h3]; omega
      · exact Or.inr (Or.inr h3)

theorem isMinimumOf_foldl (vs : List Int) (init : Int) (hne : vs ≠ [])
    (hle : ∀ v ∈ vs, v ≤ init) : IsMinimumOf (vs.foldl (fun m v => min v m) init) vs := by
  obtain ⟨_, h2, h3⟩ := foldl_min_spec vs init
  refine ⟨?_, h2⟩
  rcases h3 with h3 | h3
  · obtain ⟨a, ha⟩ := List.exists_mem_of_ne_nil vs hne
    have := h2 a ha
    have := hle a ha
    have hEq : vs.foldl (fun m v => min v m) init = a := by omega
    rw [hEq]; exact ha
  · exact h3

theorem isMaximumOf_foldl (vs : List Int) (init : Int) (hne : vs ≠ [])
    (hle : ∀ v ∈ vs, init ≤ v) : IsMaximumOf (vs.foldl (fun m v => max v m) init) vs := by
  obtain ⟨_, h2, h3⟩ := foldl_max_spec vs init
  refine ⟨?_, h2⟩
  rcases h3 with h3 | h3
  · obtain ⟨a, ha⟩ := List.exists_mem_of_ne_nil vs hne
    have := h2 a ha
    have := hle a ha
    have hEq : vs.foldl (fun m v => max v m) init = a := by omega
    rw [hEq]; exact ha
  · exact h3

theorem foldl_extendBox (recs : List (Str × Int × Int)) :
    ∀ d : CityData,
      (recs.foldl (fun d r => extendBox d r.2.1 r.2.2) d).lowerLeftCoord =
        ((recs.map (·.2.1)).foldl (fun m v => min v m) d.lowerLeftCoord.1,
         (recs.map (·.2.2)).foldl (fun m v => min v m) d.lowerLeftCoord.2) ∧
      (recs.foldl (fun d r => extendBox d r.2.1 r.2.2) d).topRightCoord =
        ((recs.map (·.2.1)).foldl (fun m v => max v m) d.topRightCoord.1,
         (recs.map (·.2.2)).foldl (fun m v => max v m) d.topRightCoord.2) := by
  induction recs with
  | nil => intro d; simp
  | cons r rest ih =>
    intro d
    simp only [List.foldl_cons, List.map_cons]
    obtain ⟨h1, h2⟩ := ih (extendBox d r.2.1 r.2.2)
    rw [h1, h2]
    simp [extendBox]

/-! ### What a returning call changes -/

theorem Outcome.andThen_returned (o : Outcome) (next : Globals → Outcome) (g2 : Globals)
    (err : List ErrorLine) (h : o.andThen next = .returned g2 err) :
    ∃ g1 err1 err2, o = .returned g1 err1 ∧ next g1 = .returned g2 err2 := by
  cases o with
  | returned g1 err1 =>
    simp only [Outcome.andThen] at h
    cases hn : next g1 with
    | returned g3 err3 =>
      rw [hn] at h
      simp only [Outcome.after, Outcome.returned.injEq] at h
      exact ⟨g1, err1, err3, rfl, by rw [hn, h.1]⟩
    | thrown e g3 err3 => rw [hn] at h; cases h
    | invalidAccess x y => rw [hn] at h; cases h
  | thrown e g1 err1 => cases h
  | invalidAccess x y => cases h

/-- A returning payload block keeps the ranges; it either keeps the registry or, in the
city branch, has assigned to a cell `grid[xPos][yPos]` of the array and extended the box of
one city by `(xPos, yPos)`. -/
theorem processPayload_returned (afterDash : Str) (fileDataType xPos yPos : Int)
    (g g1 : Globals) (err : List ErrorLine)
    (h : processPayload afterDash fileDataType xPos yPos g = .returned g1 err) :
    g1.gridXmin = g.gridXmin ∧ g1.gridXmax = g.gridXmax ∧
    g1.gridYmin = g.gridYmin ∧ g1.gridYmax = g.gridYmax ∧
    (g1.cityDataMap = g.cityDataMap ∨
      (0 ≤ xPos ∧ 0 ≤ yPos ∧ ∃ cityID, g1.cityDataMap =
        assign cityID (extendBox (entry cityID g.cityDataMap) xPos yPos) g.cityDataMap)) := by
  unfold processPayload at h
  split at h
  · split at h
    · cases h
    · rename_i cityID _
      simp only at h
      split at h
      · cases h
      · rename_i grid hmod
        cases h
        obtain ⟨hx, hy⟩ := Grid.modifyCell_nonneg _ _ _ _ _ hmod
        exact ⟨rfl, rfl, rfl, rfl, Or.inr ⟨hx, hy, cityID, rfl⟩⟩
  · split at h
    · cases h
    · simp only at h
      repeat' split at h
      all_goals first
        | (cases h; exact ⟨rfl, rfl, rfl, rfl, Or.inl rfl⟩)
        | cases h

theorem processCityData_returned (line : Str) (fileDataType : Int) (g g1 : Globals)
    (err : List ErrorLine) (h : processCityData line fileDataType g = .returned g1 err) :
    g1.gridXmin = g.gridXmin ∧ g1.gridXmax = g.gridXmax ∧
    g1.gridYmin = g.gridYmin ∧ g1.gridYmax = g.gridYmax ∧
    (g1.cityDataMap = g.cityDataMap ∨
      ∃ cityID xPos yPos, 0 ≤ xPos ∧ xPos ≤ g.gridXmax - g.gridXmin ∧ 0 ≤ yPos ∧
        yPos ≤ g.gridYmax - g.gridYmin ∧ g1.cityDataMap =
          assign cityID (extendBox (entry cityID g.cityDataMap) xPos yPos) g.cityDataMap) := by
  unfold processCityData at h
  split at h
  · cases h; exact ⟨rfl, rfl, rfl, rfl, Or.inl rfl⟩
  · split at h
    · cases h
    · cases h; exact ⟨rfl, rfl, rfl, rfl, Or.inl rfl⟩
    · rename_i xPos yPos hcoord
      obtain ⟨h1, h2, h3, h4, h5⟩ := processPayload_returned _ _ _ _ _ _ _ h
      refine ⟨h1, h2, h3, h4, ?_⟩
      rcases h5 with h5 | ⟨hx, hy, cityID, h5⟩
      · exact Or.inl h5
      · rcases extractCoordinates_position g _ xPos yPos hcoord with hneg | hin
        · omega
        · exact Or.inr ⟨cityID, xPos, yPos, hin.1, hin.2.1, hin.2.2.1, hin.2.2.2, h5⟩

theorem processCityData_citiesHaveCell (line : Str) (fileDataType : Int) (g g1 : Globals)
    (err : List ErrorLine) (h : processCityData line fileDataType g = .returned g1 err)
    (hinv : g.CitiesHaveCell) :
    g1.CitiesHaveCell ∧ g1.gridXmin = g.gridXmin ∧ g1.gridYmin = g.gridYmin := by
  obtain ⟨h1, h2, h3, h4, h5⟩ := processCityData_returned line fileDataType g g1 err h
  refine ⟨?_, h1, h3⟩
  intro c hc
  rw [h1, h2, h3, h4]
  rcases h5 with h5 | ⟨cityID, xPos, yPos, hx0, hx1, hy0, hy1, h5⟩
  · rw [h5] at hc; exact hinv c hc
  · rw [h5] at hc
    rcases mem_assign _ _ _ _ hc with heq | hmem
    · subst heq
      refine ⟨xPos, yPos, hx0, hx1, hy0, hy1, ?_⟩
      simp [extendBox]
    · exact hinv c hmem

theorem processLines_citiesHaveCell (fileDataType : Int) :
    ∀ (lines : List Str) (g g1 : Globals) (err : List ErrorLine),
      processLines fileDataType lines g = .returned g1 err → g.CitiesHaveCell →
      g1.CitiesHaveCell ∧ g1.gridXmin = g.gridXmin ∧ g1.gridYmin = g.gridYmin := by
  intro lines
  induction lines with
  | nil =>
    intro g g1 err h hinv
    simp only [processLines, Outcome.returned.injEq] at h
    rw [← h.1]; exact ⟨hinv, rfl, rfl⟩
  | cons line rest ih =>
    intro g g1 err h hinv
    simp only [processLines] at h
    obtain ⟨g2, err1, err2, hstep, hrest⟩ := Outcome.andThen_returned _ _ _ _ h
    obtain ⟨k1, k2, k3⟩ := processCityData_citiesHaveCell line fileDataType g g2 err1 hstep hinv
    obtain ⟨j1, j2, j3⟩ := ih g2 g1 err2 hrest k1
    exact ⟨j1, j2.trans k2, j3.trans k3⟩

theorem ingest_citiesHaveCell (files : Files) (paths : FilePaths) (g g1 : Globals)
    (err : List ErrorLine) (h : ingest files paths g = .returned g1 err)
    (hinv : g.CitiesHaveCell) :
    g1.CitiesHaveCell ∧ g1.gridXmin = g.gridXmin ∧ g1.gridYmin = g.gridYmin := by
  have file : ∀ (kind : Int) (path : Str) (a b : Globals) (e : List ErrorLine),
      (match files path with
        | none => Outcome.returned a []
        | some lines => processLines kind lines a) = .returned b e →
      a.CitiesHaveCell →
      b.CitiesHaveCell ∧ b.gridXmin = a.gridXmin ∧ b.gridYmin = a.gridYmin := by
    intro kind path a b e hrun ha
    split at hrun
    · cases hrun; exact ⟨ha, rfl, rfl⟩
    · exact processLines_citiesHaveCell kind _ a b e hrun ha
  unfold ingest at h
  obtain ⟨g3, e1, e2, h12, h3⟩ := Outcome.andThen_returned _ _ _ _ h
  obtain ⟨g2, e3, e4, h1, h2⟩ := Outcome.andThen_returned _ _ _ _ h12
  have s1 : g2.CitiesHaveCell ∧ g2.gridXmin = g.gridXmin ∧ g2.gridYmin = g.gridYmin := by
    split at h1
    · cases h1; exact ⟨hinv, rfl, rfl⟩
    · exact file 0 _ g g2 e3 h1 hinv
  have s2 : g3.CitiesHaveCell ∧ g3.gridXmin = g2.gridXmin ∧ g3.gridYmin = g2.gridYmin := by
    split at h2
    · cases h2; exact ⟨s1.1, rfl, rfl⟩
    · exact file 1 _ g2 g3 e4 h2 s1.1
  have s3 : g1.CitiesHaveCell ∧ g1.gridXmin = g3.gridXmin ∧ g1.gridYmin = g3.gridYmin := by
    split at h3
    · cases h3; exact ⟨s2.1, rfl, rfl⟩
    · exact file 2 _ g3 g1 e2 h3 s2.1
  exact ⟨s3.1, s3.2.1.trans (s2.2.1.trans s1.2.1), s3.2.2.trans (s2.2.2.trans s1.2.2)⟩

/-! ### The aggregation scan -/

theorem mem_loopValues (lo hi v : Int) : v ∈ loopValues lo hi ↔ lo ≤ v ∧ v ≤ hi := by
  simp only [loopValues, List.mem_map, List.mem_range]
  constructor
  · rintro ⟨i, hlt, rfl⟩
    omega
  · intro h
    refine ⟨(v - lo).toNat, ?_, ?_⟩
    · omega
    · rw [Int.toNat_of_nonneg (by omega)]
      omega

theorem mem_scanCells (g : Globals) (data : CityData) (x y : Int) :
    (x, y) ∈ scanCells g data ↔
      (max (data.lowerLeftCoord.1 - 1) g.gridXmin - g.gridXmin ≤ x ∧
        x ≤ min (data.topRightCoord.1 + 1) g.gridXmax - g.gridXmin) ∧
      (max (data.lowerLeftCoord.2 - 1) g.gridYmin - g.gridYmin ≤ y ∧
        y ≤ min (data.topRightCoord.2 + 1) g.gridYmax - g.gridYmin) := by
  simp only [scanCells, List.mem_flatMap, List.mem_map, Prod.mk.injEq, mem_loopValues]
  constructor
  · rintro ⟨a, ha, b, hb, rfl, rfl⟩
    exact ⟨ha, hb⟩
  · rintro ⟨hx, hy⟩
    exact ⟨x, hx, y, hy, rfl, rfl⟩

theorem accumulate_totalCells (grid : Grid) :
    ∀ (cells : List (Int × Int)) (t0 t : Totals), accumulate grid cells t0 = .ok t →
      t.totalCells = t0.totalCells + cells.length := by
  intro cells
  induction cells with
  | nil =>
    intro t0 t h
    simp only [accumulate, Except.ok.injEq] at h
    simp [← h]
  | cons p rest ih =>
    intro t0 t h
    obtain ⟨x, y⟩ := p
    simp only [accumulate] at h
    split at h
    · cases h
    · have := ih _ _ h
      simp only [List.length_cons, Nat.cast_add, Nat.cast_one] at *
      omega

theorem Outcome.returned_of_globals (o : Outcome) (h : o.globals.isSome = true) :
    ∃ g err, o = .returned g err := by
  cases o with
  | returned g err => exact ⟨g, err, rfl⟩
  | thrown e g err => simp [Outcome.globals] at h
  | invalidAccess x y => simp [Outcome.globals] at h

/-! ### Conversion of an `int` to `float` -/

theorem halvings_spec (fuel : Nat) :
    ∀ n : Nat, 1 ≤ n → n ≤ fuel →
      2 ^ halvings fuel n ≤ n ∧ n < 2 ^ (halvings fuel n + 1) := by
  induction fuel with
  | zero => intro n h1 h2; omega
  | succ fuel ih =>
    intro n h1 h2
    unfold halvings
    split
    · simp; omega
    · obtain ⟨a, b⟩ := ih (n / 2) (by omega) (by omega)
      have e1 : 2 ^ (halvings fuel (n / 2) + 1) = 2 * 2 ^ halvings fuel (n / 2) := by
        rw [pow_succ]; ring
      have e2 : 2 ^ (halvings fuel (n / 2) + 1 + 1) = 2 * 2 ^ (halvings fuel (n / 2) + 1) := by
        rw [pow_succ]; ring
      rw [e2]
      constructor <;> omega

theorem log2Nat_spec (n : Nat) (h : 1 ≤ n) :
    2 ^ log2Nat n ≤ n ∧ n < 2 ^ (log2Nat n + 1) :=
  halvings_spec n n h (le_refl n)

theorem roundNearestEven_one (x : Nat) : roundNearestEven x 1 = x := by
  simp [roundNearestEven, Nat.mod_one]

theorem roundMagnitude_exact (n : Nat) (hn1 : 1 ≤ n) (hn2 : n ≤ 16777216) :
    roundMagnitude n 1 = (n : ℚ) := by
  obtain ⟨hlo, hhi⟩ := log2Nat_spec n hn1
  have hk : log2Nat n ≤ 24 := by
    by_contra hgt
    have : 2 ^ 25 ≤ 2 ^ log2Nat n := Nat.pow_le_pow_right (by decide) (by omega)
    have : (2 : Nat) ^ 25 = 33554432 := by norm_num
    omega
  have hone : log2Nat 1 = 0 := by decide
  have hfloor : floorLog2 n 1 = (log2Nat n : Int) := by
    simp [floorLog2, hone, hlo]
  simp only [roundMagnitude, hfloor]
  have hmax : max (log2Nat n : Int) (-126) = (log2Nat n : Int) := by
    apply max_eq_left; omega
  rw [hmax]
  by_cases hk23 : log2Nat n ≤ 23
  · have hs : (0 : Int) ≤ 23 - (log2Nat n : Int) := by omega
    simp only [hs, if_true, roundNearestEven_one]
    push_cast
    field_simp
  · have hk24 : log2Nat n = 24 := by omega
    rw [hk24] at hlo
    have hv : n = 16777216 := by
      have : (2 : Nat) ^ 24 = 16777216 := by norm_num
      omega
    subst hv
    decide!

/-- An `int` of at most 24 bits is converted to `float` without rounding. -/
theorem floatOfInt_exact (v : Int) (h0 : 0 ≤ v) (h1 : v ≤ 16777216) :
    floatOfInt v = (v : ℚ) := by
  obtain ⟨n, rfl⟩ := Int.eq_ofNat_of_zero_le h0
  by_cases hz : n = 0
  · subst hz; simp [floatOfInt]
  have hne : ¬ ((n : Int) = 0) := by omega
  have hpos : (0 : Int) < (n : Int) := by omega
  simp only [floatOfInt, hne, hpos, if_false, if_true, Int.natAbs_ofNat]
  rw [roundMagnitude_exact n (by omega) (by omega)]
  simp

/-! ### Percentage records -/

/-- What `processCityData` does with an in-bounds record `[x,y]-v` of the cloud-cover or
the pressure file whose payload has no hyphen: it writes the invalid-value line when `v`
is outside 0..100 and stores `static_cast<float>(v)`, unclamped, in the field of the source
kind. -/
theorem processCityData_percentage_stored (g : Globals) (line : Str) (fileDataType : Int)
    (dashPosition commaPosition : Nat) (x y v : Int) (halloc : g.Allocated)
    (hdash : find line '-' = some dashPosition)
    (hcomma : find (coordinateText line dashPosition) ',' = some commaPosition)
    (hx : stoi ((coordinateText line dashPosition).take commaPosition) = .ok x)
    (hy : stoi ((coordinateText line dashPosition).drop (commaPosition + 1)) = .ok y)
    (hin : g.gridXmin ≤ x ∧ x ≤ g.gridXmax ∧ g.gridYmin ≤ y ∧ y ≤ g.gridYmax)
    (hbare : find (payloadText line dashPosition) '-' = none)
    (hv : stoi (payloadText line dashPosition) = .ok v)
    (hkind : fileDataType = 1 ∨ fileDataType = 2) :
    ∃ g1 c,
      processCityData line fileDataType g =
        .returned g1 (if v < 0 ∨ v > 100 then [.invalidValue] else []) ∧
      g1.grid.cell (x - g.gridXmin) (y - g.gridYmin) = some c ∧
      (fileDataType = 1 → c.cloudCover = floatOfInt v) ∧
      (fileDataType = 2 → c.atmosphericPressure = floatOfInt v) := by
  have hnot : ¬ (x < g.gridXmin ∨ x > g.gridXmax ∨ y < g.gridYmin ∨ y > g.gridYmax) := by
    omega
  have hcoord := extractCoordinates_of_parsed g _ _ x y hcomma hx hy
  rw [if_neg hnot] at hcoord
  obtain ⟨c0, hc0⟩ := Globals.cell_of_allocated g (x - g.gridXmin) (y - g.gridYmin) halloc
    (by omega) (by omega) (by omega) (by omega)
  rcases hkind with hk | hk
  · subst hk
    have hmod : ∃ grid1, g.grid.modifyCell (x - g.gridXmin) (y - g.gridYmin)
        (fun c => { c with cloudCover := floatOfInt v }) = some grid1 := by
      simp [Grid.modifyCell, hc0]
    obtain ⟨grid1, hmod⟩ := hmod
    obtain ⟨c1, _, hc1⟩ := Grid.cell_modifyCell_self _ _ _ _ _ hmod
    refine ⟨{ g with grid := grid1 }, _, ?_, hc1, fun _ => rfl, fun h => by omega⟩
    simp only [processCityData, hdash, hcoord, processPayload, hbare, hv, hmod, if_true]
  · subst hk
    have hmod : ∃ grid1, g.grid.modifyCell (x - g.gridXmin) (y - g.gridYmin)
        (fun c => { c with atmosphericPressure := floatOfInt v }) = some grid1 := by
      simp [Grid.modifyCell, hc0]
    obtain ⟨grid1, hmod⟩ := hmod
    obtain ⟨c1, _, hc1⟩ := Grid.cell_modifyCell_self _ _ _ _ _ hmod
    refine ⟨{ g with grid := grid1 }, _, ?_, hc1, fun h => by omega, fun _ => rfl⟩
    simp [processCityData, hdash, hcoord, processPayload, hbare, hv, hmod]

/-! ### Decimal text -/

theorem find_append_of_none (a b : Str) (c : Char) (h : find a c = none) :
    find (a ++ c :: b) c = some a.length := by
  induction a with
  | nil => simp [find]
  | cons x t ih =>
    simp only [find] at h
    split at h
    · cases h
    · rename_i hne
      have ht : find t c = none := by
        cases hf : find t c with
        | none => rfl
        | some k => rw [hf] at h; cases h
      simp [find, hne, ih ht]

theorem find_eq_none_of_forall (a : Str) (c : Char) (h : ∀ x ∈ a, x ≠ c) :
    find a c = none := by
  induction a with
  | nil => rfl
  | cons x t ih =>
    have hx : x ≠ c := h x (List.mem_cons_self _ _)
    simp [find, hx, ih (fun y hy => h y (List.mem_cons_of_mem _ hy))]

theorem digitChar_isDigit (k : Nat) (hk : k < 10) :
    (Nat.digitChar k).isDigit = true ∧ (Nat.digitChar k).toNat - 48 = k := by
  interval_cases k <;> exact ⟨by decide, by decide⟩

theorem isDigit_not_space (c : Char) (h : c.isDigit = true) :
    isspace c = false ∧ c ≠ '-' ∧ c ≠ '+' := by
  refine ⟨?_, ?_, ?_⟩
  · cases hs : isspace c with
    | false => rfl
    | true =>
      exfalso
      simp only [isspace, Bool.or_eq_true, decide_eq_true_eq] at hs
      rcases hs with ((((rfl | rfl) | rfl) | rfl) | rfl) | rfl <;> revert h <;> decide
  · rintro rfl; revert h; decide
  · rintro rfl; revert h; decide

theorem decimalDigits_isDigit (fuel : Nat) :
    ∀ (n : Nat) (text : Str), (∀ c ∈ text, c.isDigit = true) →
      ∀ c ∈ decimalDigits fuel n text, c.isDigit = true := by
  induction fuel with
  | zero => intro n text h; simpa [decimalDigits] using h
  | succ fuel ih =>
    intro n text h
    have hd := (digitChar_isDigit (n % 10) (Nat.mod_lt _ (by decide))).1
    have hcons : ∀ c ∈ Nat.digitChar (n % 10) :: text, c.isDigit = true := by
      intro c hc
      rcases List.mem_cons.mp hc with rfl | hc
      · exact hd
      · exact h c hc
    unfold decimalDigits
    split
    · exact hcons
    · exact ih _ _ hcons

theorem decimalDigits_ne_nil (fuel : Nat) :
    ∀ (n : Nat) (text : Str), text ≠ [] → decimalDigits fuel n text ≠ [] := by
  induction fuel with
  | zero => intro n text h; simpa [decimalDigits] using h
  | succ fuel ih =>
    intro n text _
    unfold decimalDigits
    split
    · simp
    · exact ih _ _ (by simp)

theorem decimalDigits_value (fuel : Nat) :
    ∀ (n : Nat) (text : Str), n < fuel →
      (decimalDigits fuel n text).foldl (fun acc c => acc * 10 + (c.toNat - 48)) 0 =
        text.foldl (fun acc c => acc * 10 + (c.toNat - 48)) n := by
  induction fuel with
  | zero => intro n text h; omega
  | succ fuel ih =>
    intro n text hn
    have hd := (digitChar_isDigit (n % 10) (Nat.mod_lt _ (by decide))).2
    unfold decimalDigits
    split
    · rename_i hzero
      simp only [List.foldl_cons, hd]
      have : n % 10 = n := by omega
      simp [this]
    · rename_i hpos
      rw [ih (n / 10) _ (by omega)]
      simp only [List.foldl_cons, hd]
      have : n / 10 * 10 + n % 10 = n := by omega
      rw [this]

theorem natText_spec (n : Nat) :
    natText n ≠ [] ∧ (∀ c ∈ natText n, c.isDigit = true) ∧ digitsValue (natText n) = n := by
  refine ⟨?_, ?_, ?_⟩
  · unfold natText decimalDigits
    split
    · simp
    · exact decimalDigits_ne_nil _ _ _ (by simp)
  · exact decimalDigits_isDigit _ _ _ (by simp)
  · unfold natText digitsValue
    rw [decimalDigits_value _ _ _ (by omega)]
    rfl

theorem takeWhile_append_digits (ds rest : Str) (hall : ∀ c ∈ ds, c.isDigit = true)
    (hrest : ∀ c t, rest = c :: t → c.isDigit = false) :
    (ds ++ rest).takeWhile Char.isDigit = ds := by
  induction ds with
  | nil =>
    cases rest with
    | nil => rfl
    | cons c t => simp [List.takeWhile, hrest c t rfl]
  | cons x t ih =>
    have hx : x.isDigit = true := hall x (List.mem_cons_self _ _)
    simp [List.takeWhile, hx, ih (fun c hc => hall c (List.mem_cons_of_mem _ hc))]

theorem signed_of_digit (c : Char) (u : Str) (hminus : c ≠ '-') (hplus : c ≠ '+') :
    (match c :: u with
      | '-' :: t => (true, t)
      | '+' :: t => (false, t)
      | _ => (false, c :: u)) = (false, c :: u) := by
  split
  · rename_i heq; exact absurd (List.cons.inj heq).1 hminus
  · rename_i heq; exact absurd (List.cons.inj heq).1 hplus
  · rfl

/-- `stoi` on a non-empty run of digits followed by the end of the text or by a character
that is not a digit. -/
theorem stoi_digits (ds rest : Str) (hne : ds ≠ []) (hall : ∀ c ∈ ds, c.isDigit = true)
    (hrest : ∀ c t, rest = c :: t → c.isDigit = false)
    (hle : (digitsValue ds : Int) ≤ INT_MAX) :
    stoi (ds ++ rest) = .ok (digitsValue ds : Int) := by
  obtain ⟨c, t, rfl⟩ := List.exists_cons_of_ne_nil hne
  obtain ⟨hspace, hminus, hplus⟩ := isDigit_not_space c (hall c (List.mem_cons_self _ _))
  have htake := takeWhile_append_digits (c :: t) rest hall hrest
  have hmin : INT_MIN ≤ (digitsValue (c :: t) : Int) := by
    have : (0 : Int) ≤ (digitsValue (c :: t) : Int) := Int.ofNat_nonneg _
    simp only [INT_MIN]; omega
  unfold stoi
  simp only [List.cons_append, List.dropWhile_cons, hspace, Bool.false_eq_true, if_false,
    signed_of_digit c (t ++ rest) hminus hplus]
  rw [← List.cons_append, htake]
  simp [hmin, hle]

/-- `stoi` on a minus sign followed by such a run of digits. -/
theorem stoi_minus_digits (ds rest : Str) (hne : ds ≠ [])
    (hall : ∀ c ∈ ds, c.isDigit = true)
    (hrest : ∀ c t, rest = c :: t → c.isDigit = false)
    (hle : INT_MIN ≤ -(digitsValue ds : Int)) :
    stoi ('-' :: (ds ++ rest)) = .ok (-(digitsValue ds : Int)) := by
  have htake := takeWhile_append_digits ds rest hall hrest
  have hmax : -(digitsValue ds : Int) ≤ INT_MAX := by
    have : (0 : Int) ≤ (digitsValue ds : Int) := Int.ofNat_nonneg _
    simp only [INT_MAX]; omega
  have hspace : isspace '-' = false := by decide
  unfold stoi
  simp only [List.dropWhile_cons, hspace, Bool.false_eq_true, if_false, htake]
  simp [hne, hle, hmax]

theorem stoi_intText (v : Int) (rest : Str)
    (hrest : ∀ c t, rest = c :: t → c.isDigit = false)
    (h0 : INT_MIN ≤ v) (h1 : v ≤ INT_MAX) : stoi (intText v ++ rest) = .ok v := by
  cases v with
  | ofNat n =>
    obtain ⟨hne, hall, hval⟩ := natText_spec n
    have := stoi_digits (natText n) rest hne hall hrest (by rw [hval]; exact h1)
    rw [hval] at this
    exact this
  | negSucc n =>
    obtain ⟨hne, hall, hval⟩ := natText_spec (n + 1)
    have hneg : -((n + 1 : Nat) : Int) = Int.negSucc n := by
      rw [Int.negSucc_eq]; push_cast; rfl
    have := stoi_minus_digits (natText (n + 1)) rest hne hall hrest
      (by rw [hval, hneg]; exact h0)
    rw [hval, hneg] at this
    exact this

theorem find_intText_of_nonneg (v : Int) (h : 0 ≤ v) : find (intText v) '-' = none := by
  cases v with
  | ofNat n =>
    refine find_eq_none_of_forall _ _ (fun x hx => ?_)
    exact (isDigit_not_space x ((natText_spec n).2.1 x hx)).2.1
  | negSucc n => exact absurd h (not_le.mpr (Int.negSucc_lt_zero n))

/-! ### Range lines of the configuration -/

/-- The range loop on a line `GridX_IdxRange=a-b` in which `a` has no dash. -/
theorem parseRangeLine_gridX (g : Globals) (a b : Str) (min max : Int)
    (ha : find a '-' = none) (hmin : stoi a = .ok min) (hmax : stoi b = .ok max) :
    parseRangeLine ("GridX_IdxRange=".toList ++ (a ++ '-' :: b)) g =
      .returned { g with gridXmin := min, gridXmax := max } [] := by
  have h1 : findStr ("GridX_IdxRange=".toList ++ (a ++ '-' :: b)) "Grid".toList = some 0 := rfl
  have h2 : find ("GridX_IdxRange=".toList ++ (a ++ '-' :: b)) '=' = some 14 := rfl
  have h3 : ("GridX_IdxRange=".toList ++ (a ++ '-' :: b)).take 14 =
      "GridX_IdxRange".toList := rfl
  have h4 : ("GridX_IdxRange=".toList ++ (a ++ '-' :: b)).drop (14 + 1) = a ++ '-' :: b := rfl
  have h5 := find_append_of_none a b '-' ha
  have h6 : (a ++ '-' :: b).take a.length = a := by simp
  have h7 : (a ++ '-' :: b).drop (a.length + 1) = b := by simp
  simp only [parseRangeLine, h1, h2, h3, h4, h5, h6, h7, hmin, hmax, if_true]

/-- The range loop on a line `GridY_IdxRange=a-b` in which `a` has no dash. -/
theorem parseRangeLine_gridY (g : Globals) (a b : Str) (min max : Int)
    (ha : find a '-' = none) (hmin : stoi a = .ok min) (hmax : stoi b = .ok max) :
    parseRangeLine ("GridY_IdxRange=".toList ++ (a ++ '-' :: b)) g =
      .returned { g with gridYmin := min, gridYmax := max } [] := by
  have h1 : findStr ("GridY_IdxRange=".toList ++ (a ++ '-' :: b)) "Grid".toList = some 0 := rfl
  have h2 : find ("GridY_IdxRange=".toList ++ (a ++ '-' :: b)) '=' = some 14 := rfl
  have h3 : ("GridY_IdxRange=".toList ++ (a ++ '-' :: b)).take 14 =
      "GridY_IdxRange".toList := rfl
  have h4 : ("GridY_IdxRange=".toList ++ (a ++ '-' :: b)).drop (14 + 1) = a ++ '-' :: b := rfl
  have h5 := find_append_of_none a b '-' ha
  have h6 : (a ++ '-' :: b).take a.length = a := by simp
  have h7 : (a ++ '-' :: b).drop (a.length + 1) = b := by simp
  have hne : ¬ ("GridY_IdxRange".toList = "GridX_IdxRange".toList) := by decide
  simp only [parseRangeLine, h1, h2, h3, h4, h5, h6, h7, hmin, hmax, hne, if_true, if_false]

/-! ### Frame of an assignment to a cell -/

theorem Grid.cell_modifyCell_other (grid grid1 : Grid) (x y x1 y1 : Int)
    (f : GridCellInfo → GridCellInfo) (h : grid.modifyCell x y f = some grid1)
    (hne : (x1, y1) ≠ (x, y)) : grid1.cell x1 y1 = grid.cell x1 y1 := by
  obtain ⟨hx0, hy0⟩ := Grid.modifyCell_nonneg grid grid1 x y f h
  unfold Grid.modifyCell at h
  split at h
  swap
  · cases h
  rename_i c hc
  cases h
  unfold Grid.cell
  by_cases hpos : 0 ≤ x1 ∧ 0 ≤ y1
  swap
  · simp [hpos]
  simp only [hpos, and_self, if_true, List.get?_eq_getElem?]
  by_cases hx : x1 = x
  · subst hx
    have hy : y1.toNat ≠ y.toNat := by
      intro hEq
      apply hne
      have : y1 = y := by omega
      rw [this]
    by_cases hlt : x1.toNat < grid.length
    · simp [List.getElem?_set, hlt, List.getD_eq_getElem _ _ hlt, Ne.symm hy]
    · exfalso
      unfold Grid.cell at hc
      simp [hx0, hy0, List.getElem?_eq_none (Nat.le_of_not_lt hlt)] at hc
  · have hxn : x.toNat ≠ x1.toNat := by omega
    simp [List.getElem?_set, hxn]

/-! ### Reads of the aggregation loop -/

theorem accumulate_ok (grid : Grid) :
    ∀ (cells : List (Int × Int)) (t0 : Totals),
      (∀ p ∈ cells, ∃ c, grid.cell p.1 p.2 = some c) →
      ∃ t, accumulate grid cells t0 = .ok t := by
  intro cells
  induction cells with
  | nil => intro t0 _; exact ⟨t0, rfl⟩
  | cons p rest ih =>
    intro t0 h
    obtain ⟨x, y⟩ := p
    obtain ⟨c, hc⟩ := h (x, y) (List.mem_cons_self _ _)
    simp only [accumulate, hc]
    exact ih _ (fun q hq => h q (List.mem_cons_of_mem _ hq))

theorem scanCells_bounds (g : Globals) (data : CityData) (x y : Int)
    (h : (x, y) ∈ scanCells g data) :
    0 ≤ x ∧ x ≤ g.gridXmax - g.gridXmin ∧ 0 ≤ y ∧ y ≤ g.gridYmax - g.gridYmin := by
  rw [mem_scanCells] at h
  omega

/-! ### Lines with two dashes -/

theorem find_some_split (s : Str) (c : Char) :
    ∀ d : Nat, find s c = some d →
      find (s.take d) c = none ∧ s = s.take d ++ c :: s.drop (d + 1) := by
  induction s with
  | nil => intro d h; cases h
  | cons x t ih =>
    intro d h
    simp only [find] at h
    split at h
    · rename_i hx
      cases h
      subst hx
      exact ⟨rfl, rfl⟩
    · rename_i hx
      cases hf : find t c with
      | none => rw [hf] at h; cases h
      | some k =>
        rw [hf] at h
        cases h
        obtain ⟨h1, h2⟩ := ih k hf
        refine ⟨?_, ?_⟩
        · simp [find, hx, h1]
        · simp only [List.take_succ_cons, List.drop_succ_cons, List.cons_append]
          rw [← h2]

/-- What `processCityData` does with a line that has the dash-free text `a` before its
first dash and the dash-free text `b` between its first and its second dash. -/
theorem processCityData_two_dashes (g : Globals) (a b label : Str) (fileDataType : Int)
    (ha : find a '-' = none) (hb : find b '-' = none) :
    processCityData (a ++ '-' :: (b ++ '-' :: label)) fileDataType g =
      match extractCoordinates g (a.filter (fun c => !(c = ' ' || c = '[' || c = ']'))) with
      | .thrown e => .thrown e g []
      | .outOfBounds x y => .returned g [.outOfBounds x y]
      | .position xPos yPos =>
        match stoi b with
        | .error e => .thrown e g []
        | .ok cityID =>
          match g.grid.modifyCell xPos yPos
              (fun c => { c with isCity := true, cityId := cityID }) with
          | none => .invalidAccess xPos yPos
          | some grid =>
            .returned
              { g with
                grid := grid
                cityDataMap :=
                  assign cityID (extendBox (entry cityID g.cityDataMap) xPos yPos)
                    g.cityDataMap }
              (cityErrors cityID label) := by
  have h1 := find_append_of_none a (b ++ '-' :: label) '-' ha
  have h2 : coordinateText (a ++ '-' :: (b ++ '-' :: label)) a.length =
      a.filter (fun c => !(c = ' ' || c = '[' || c = ']')) := by
    simp [coordinateText]
  have h3 : payloadText (a ++ '-' :: (b ++ '-' :: label)) a.length = b ++ '-' :: label := by
    simp [payloadText]
  have h4 := find_append_of_none b label '-' hb
  have h5 : (b ++ '-' :: label).take b.length = b := by simp
  have h6 : (b ++ '-' :: label).drop (b.length + 1) = label := by simp
  simp only [processCityData, h1, h2, h3]
  split
  · rfl
  · rfl
  · simp only [processPayload, h4, h5, h6]

/-- What `processCityData` does, for every source kind, with a line it reads as an
in-bounds city record: the cell is marked as a city and the box of the city is extended. -/
theorem processCityData_cityRecord_cell (g : Globals) (line : Str) (fileDataType : Int)
    (cityID xPos yPos : Int) (halloc : g.Allocated)
    (h : readCityRecord g line = some (cityID, xPos, yPos)) :
    ∃ g1 err c, processCityData line fileDataType g = .returned g1 err ∧
      g1.grid.cell xPos yPos = some c ∧ c.isCity = true ∧ c.cityId = cityID ∧
      g1.cityDataMap =
        assign cityID (extendBox (entry cityID g.cityDataMap) xPos yPos) g.cityDataMap := by
  obtain ⟨hin, _⟩ := processCityData_cityRecord g line fileDataType cityID xPos yPos halloc h
  unfold readCityRecord at h
  split at h
  · cases h
  rename_i dashPosition hdash
  split at h
  · cases h
  split at h
  swap
  · cases h
  rename_i x y hcoord
  split at h
  · cases h
  rename_i hyphenPosition hhyphen
  split at h
  swap
  · cases h
  rename_i id hid
  cases h
  obtain ⟨c0, hc0⟩ := Globals.cell_of_allocated g xPos yPos halloc hin.1 hin.2.1 hin.2.2.1
    hin.2.2.2
  have hmod : ∃ grid1, g.grid.modifyCell xPos yPos
      (fun c => { c with isCity := true, cityId := cityID }) = some grid1 := by
    simp [Grid.modifyCell, hc0]
  obtain ⟨grid1, hmod⟩ := hmod
  obtain ⟨c1, _, hnew⟩ := Grid.cell_modifyCell_self _ _ _ _ _ hmod
  refine ⟨{ g with grid := grid1, cityDataMap := _ },
    cityErrors cityID ((payloadText line dashPosition).drop (hyphenPosition + 1)),
    _, ?_, hnew, rfl, rfl, rfl⟩
  simp only [processCityData, hdash, hcoord, processPayload, hhyphen, hid, hmod]

/-! ### The allocated array through the ingestion -/

theorem processPayload_allocated (afterDash : Str) (fileDataType xPos yPos : Int)
    (g g1 : Globals) (err : List ErrorLine)
    (h : processPayload afterDash fileDataType xPos yPos g = .returned g1 err)
    (halloc : g.Allocated) : g1.Allocated := by
  unfold processPayload at h
  split at h
  · split at h
    · cases h
    · simp only at h
      split at h
      · cases h
      · rename_i grid hmod
        cases h
        obtain ⟨hlen, hcols⟩ := Grid.modifyCell_lengths g.grid _ _ _ _ _ halloc.2.2.2 hmod
        exact Globals.allocated_of_grid g _ _ halloc hlen hcols
  · split at h
    · cases h
    · simp only at h
      split at h
      · split at h
        · cases h
        · rename_i grid hmod
          cases h
          obtain ⟨hlen, hcols⟩ := Grid.modifyCell_lengths g.grid _ _ _ _ _ halloc.2.2.2 hmod
          exact Globals.allocated_of_grid g _ _ halloc hlen hcols
      · split at h
        · split at h
          · cases h
          · rename_i grid hmod
            cases h
            obtain ⟨hlen, hcols⟩ :=
              Grid.modifyCell_lengths g.grid _ _ _ _ _ halloc.2.2.2 hmod
            exact Globals.allocated_of_grid g _ _ halloc hlen hcols
        · cases h; exact halloc

theorem processCityData_allocated (line : Str) (fileDataType : Int) (g g1 : Globals)
    (err : List ErrorLine) (h : processCityData line fileDataType g = .returned g1 err)
    (halloc : g.Allocated) : g1.Allocated := by
  unfold processCityData at h
  split at h
  · cases h; exact halloc
  · split at h
    · cases h
    · cases h; exact halloc
    · exact processPayload_allocated _ _ _ _ _ _ _ h halloc

theorem processLines_allocated (fileDataType : Int) :
    ∀ (lines : List Str) (g g1 : Globals) (err : List ErrorLine),
      processLines fileDataType lines g = .returned g1 err → g.Allocated → g1.Allocated := by
  intro lines
  induction lines with
  | nil =>
    intro g g1 err h halloc
    simp only [processLines, Outcome.returned.injEq] at h
    rw [← h.1]; exact halloc
  | cons line rest ih =>
    intro g g1 err h halloc
    simp only [processLines] at h
    obtain ⟨g2, err1, err2, hstep, hrest⟩ := Outcome.andThen_returned _ _ _ _ h
    exact ih g2 g1 err2 hrest (processCityData_allocated line fileDataType g g2 err1 hstep halloc)

theorem ingest_allocated (files : Files) (paths : FilePaths) (g g1 : Globals)
    (err : List ErrorLine) (h : ingest files paths g = .returned g1 err)
    (halloc : g.Allocated) : g1.Allocated := by
  have file : ∀ (kind : Int) (path : Str) (a b : Globals) (e : List ErrorLine),
      (match files path with
        | none => Outcome.returned a []
        | some lines => processLines kind lines a) = .returned b e →
      a.Allocated → b.Allocated := by
    intro kind path a b e hrun ha
    split at hrun
    · cases hrun; exact ha
    · exact processLines_allocated kind _ a b e hrun ha
  unfold ingest at h
  obtain ⟨g3, e1, e2, h12, h3⟩ := Outcome.andThen_returned _ _ _ _ h
  obtain ⟨g2, e3, e4, h1, h2⟩ := Outcome.andThen_returned _ _ _ _ h12
  have s1 : g2.Allocated := by
    split at h1
    · cases h1; exact halloc
    · exact file 0 _ g g2 e3 h1 halloc
  have s2 : g3.Allocated := by
    split at h2
    · cases h2; exact s1
    · exact file 1 _ g2 g3 e4 h2 s1
  split at h3
  · cases h3; exact s2
  · exact file 2 _ g3 g1 e2 h3 s2

/-! ### Claims -/

/-- C1 (the code at a failing input): with ranges `5-9` and the single city cell `[7,7]`
(pressure 50, cloud cover 80), option 1 leaves city 1 with NaN for both averages.  The box
holds the normalised cell `(2, 2)`, but the aggregation loop clamps `2 - 1` and `2 + 1`
against the raw bounds 5 and 9 before it subtracts `gridXmin`: it runs from index 0 to
index -2 and reads no cell, where the mean over the 3 x 3 block around the cell is
`50 / 9` and `80 / 9`. -/
theorem aggregation_reads_no_cell_when_range_shifted :
    (optionOne shiftedFiles "config.txt".toList {}).registry =
      some [(1, { lowerLeftCoord := (2, 2), topRightCoord := (2, 2),
                  avgAtmosphericPressure := .nan, avgCloudCover := .nan })] := by
  with_unfolding_all decide

/-- C2 (amended): for every grid range, every source kind and every line in which the
text before the first dash, with brackets and spaces erased, is `x,y` for integers that
`stoi` reads and that lie outside `[gridXmin, gridXmax] x [gridYmin, gridYmax]`,
`processCityData` writes the out-of-bounds error and returns with the grid and the city
registry unchanged. -/
theorem processCityData_rejects_out_of_bounds (g : Globals) (line : Str)
    (fileDataType : Int) (dashPosition commaPosition : Nat) (x y : Int)
    (hdash : find line '-' = some dashPosition)
    (hcomma : find (coordinateText line dashPosition) ',' = some commaPosition)
    (hx : stoi ((coordinateText line dashPosition).take commaPosition) = .ok x)
    (hy : stoi ((coordinateText line dashPosition).drop (commaPosition + 1)) = .ok y)
    (hout : x < g.gridXmin ∨ x > g.gridXmax ∨ y < g.gridYmin ∨ y > g.gridYmax) :
    processCityData line fileDataType g = .returned g [.outOfBounds x y] := by
  simp only [processCityData, hdash, extractCoordinates_of_parsed g _ _ x y hcomma hx hy,
    if_pos hout]

/-- C2, witness: the record `[10,10]-50` with ranges `0-4` is rejected for each of the three
source kinds and the globals are unchanged. -/
theorem processCityData_rejects_out_of_bounds_witness :
    processCityData "[10,10]-50".toList 0 grid5 = .returned grid5 [.outOfBounds 10 10] ∧
    processCityData "[10,10]-50".toList 1 grid5 = .returned grid5 [.outOfBounds 10 10] ∧
    processCityData "[10,10]-50".toList 2 grid5 = .returned grid5 [.outOfBounds 10 10] :=
  ⟨processCityData_rejects_out_of_bounds grid5 "[10,10]-50".toList 0 7 2 10 10
      (by decide) (by decide) (by decide) (by decide) (by decide),
   processCityData_rejects_out_of_bounds grid5 "[10,10]-50".toList 1 7 2 10 10
      (by decide) (by decide) (by decide) (by decide) (by decide),
   processCityData_rejects_out_of_bounds grid5 "[10,10]-50".toList 2 7 2 10 10
      (by decide) (by decide) (by decide) (by decide) (by decide)⟩

/-- C2, counterexample: the lines `[-1,2]-50` and `[2,-1]-50` have a coordinate pair
outside the ranges `0-4`, yet neither is rejected with the out-of-bounds error.  The minus
sign is taken for the separating dash: in the first line no comma is found before it and
the payload block goes on to access `grid[-1][-1]`; in the second the text after the comma
is empty and `stoi` throws. -/
theorem negative_coordinate_not_rejected :
    processCityData "[-1,2]-50".toList 1 grid5 = .invalidAccess (-1) (-1) ∧
    processCityData "[-1,2]-50".toList 1 grid5 ≠ .returned grid5 [.outOfBounds (-1) 2] ∧
    processCityData "[2,-1]-50".toList 1 grid5 = .thrown .invalidArgument grid5 [] ∧
    processCityData "[2,-1]-50".toList 1 grid5 ≠ .returned grid5 [.outOfBounds 2 (-1)] := by
  decide

/-- C3: for every city id and every non-empty sequence of lines that `processCityData`
reads as in-bounds city records of that id, processed on an allocated grid with an empty
registry, the run returns and the registry entry of the id has as `lowerLeftCoord` the
coordinate-wise minimum and as `topRightCoord` the coordinate-wise maximum of the
normalised coordinates; so `lowerLeftCoord <= topRightCoord` on both axes, and a further
record of the id only moves `lowerLeftCoord` down and `topRightCoord` up. -/
theorem bounding_box_is_min_max (g : Globals) (fileDataType cityID : Int)
    (recs : List (Str × Int × Int)) (halloc : g.Allocated) (hempty : g.cityDataMap = [])
    (hne : recs ≠ [])
    (hrec : ∀ r ∈ recs, readCityRecord g r.1 = some (cityID, r.2.1, r.2.2)) :
    ∃ g1 err d, processLines fileDataType (recs.map (·.1)) g = .returned g1 err ∧
      lookup cityID g1.cityDataMap = some d ∧
      IsMinimumOf d.lowerLeftCoord.1 (recs.map (·.2.1)) ∧
      IsMinimumOf d.lowerLeftCoord.2 (recs.map (·.2.2)) ∧
      IsMaximumOf d.topRightCoord.1 (recs.map (·.2.1)) ∧
      IsMaximumOf d.topRightCoord.2 (recs.map (·.2.2)) ∧
      d.lowerLeftCoord.1 ≤ d.topRightCoord.1 ∧ d.lowerLeftCoord.2 ≤ d.topRightCoord.2 ∧
      ∀ (line : Str) (kind xPos yPos : Int),
        readCityRecord g line = some (cityID, xPos, yPos) →
        ∃ g2 err2 d2, processCityData line kind g1 = .returned g2 err2 ∧
          lookup cityID g2.cityDataMap = some d2 ∧
          d2.lowerLeftCoord.1 ≤ d.lowerLeftCoord.1 ∧
          d2.lowerLeftCoord.2 ≤ d.lowerLeftCoord.2 ∧
          d.topRightCoord.1 ≤ d2.topRightCoord.1 ∧
          d.topRightCoord.2 ≤ d2.topRightCoord.2 := by
  obtain ⟨g1, err, hrun, halloc1, hx0, hx1, hy0, hy1, hentry, hsome⟩ :=
    processLines_cityRecords fileDataType cityID recs g halloc hrec
  have hlook := hsome (Or.inl hne)
  have hbounds : ∀ r ∈ recs, 0 ≤ r.2.1 ∧ r.2.1 ≤ g.gridXmax - g.gridXmin ∧ 0 ≤ r.2.2 ∧
      r.2.2 ≤ g.gridYmax - g.gridYmin := fun r hr =>
    (processCityData_cityRecord g r.1 fileDataType cityID r.2.1 r.2.2 halloc (hrec r hr)).1
  obtain ⟨hxmax, hymax, _, _⟩ := halloc
  have hinit : entry cityID g.cityDataMap = {} := by rw [hempty]; rfl
  rw [hinit] at hentry
  obtain ⟨hll, htr⟩ := foldl_extendBox recs {}
  rw [← hentry] at hll htr
  have hxs : recs.map (·.2.1) ≠ [] := by simpa using hne
  have hys : recs.map (·.2.2) ≠ [] := by simpa using hne
  have hminx := isMinimumOf_foldl (recs.map (·.2.1)) INT_MAX hxs (by
    intro v hv
    obtain ⟨r, hr, rfl⟩ := List.mem_map.mp hv
    have := hbounds r hr
    omega)
  have hminy := isMinimumOf_foldl (recs.map (·.2.2)) INT_MAX hys (by
    intro v hv
    obtain ⟨r, hr, rfl⟩ := List.mem_map.mp hv
    have := hbounds r hr
    omega)
  have hmaxx := isMaximumOf_foldl (recs.map (·.2.1)) INT_MIN hxs (by
    intro v hv
    obtain ⟨r, hr, rfl⟩ := List.mem_map.mp hv
    have := hbounds r hr
    simp only [INT_MIN]
    omega)
  have hmaxy := isMaximumOf_foldl (recs.map (·.2.2)) INT_MIN hys (by
    intro v hv
    obtain ⟨r, hr, rfl⟩ := List.mem_map.mp hv
    have := hbounds r hr
    simp only [INT_MIN]
    omega)
  have e1 : (entry cityID g1.cityDataMap).lowerLeftCoord.1 =
      (recs.map (·.2.1)).foldl (fun m v => min v m) INT_MAX := by rw [hll]
  have e2 : (entry cityID g1.cityDataMap).lowerLeftCoord.2 =
      (recs.map (·.2.2)).foldl (fun m v => min v m) INT_MAX := by rw [hll]
  have e3 : (entry cityID g1.cityDataMap).topRightCoord.1 =
      (recs.map (·.2.1)).foldl (fun m v => max v m) INT_MIN := by rw [htr]
  have e4 : (entry cityID g1.cityDataMap).topRightCoord.2 =
      (recs.map (·.2.2)).foldl (fun m v => max v m) INT_MIN := by rw [htr]
  rw [← e1] at hminx
  rw [← e2] at hminy
  rw [← e3] at hmaxx
  rw [← e4] at hmaxy
  refine ⟨g1, err, entry cityID g1.cityDataMap, hrun, hlook, hminx, hminy, hmaxx, hmaxy,
    ?_, ?_, ?_⟩
  · exact hminx.2 _ hmaxx.1
  · exact hminy.2 _ hmaxy.1
  · intro line kind xPos yPos hline
    rw [← readCityRecord_congr g g1 line hx0 hx1 hy0 hy1] at hline
    obtain ⟨_, g2, err2, hstep, _, _, _, _, _, hmap⟩ :=
      processCityData_cityRecord g1 line kind cityID xPos yPos halloc1 hline
    refine ⟨g2, err2, extendBox (entry cityID g1.cityDataMap) xPos yPos, hstep, ?_, ?_, ?_,
      ?_, ?_⟩
    · rw [hmap]; exact lookup_assign_self _ _ _
    all_goals simp [extendBox]

/-- C3, witness: the records `[2,3]-7-Mid_City` and `[1,4]-7-Mid_City` on the 5 x 5 grid
leave city 7 with the box `(1,3)-(2,4)`. -/
theorem bounding_box_is_min_max_witness :
    ∃ g1 err d,
      processLines 0 ["[2,3]-7-Mid_City".toList, "[1,4]-7-Mid_City".toList] grid5 =
        .returned g1 err ∧
      lookup 7 g1.cityDataMap = some d ∧
      d.lowerLeftCoord = (1, 3) ∧ d.topRightCoord = (2, 4) := by
  obtain ⟨g1, err, d, hrun, hlook, h1, h2, h3, h4, _⟩ :=
    bounding_box_is_min_max grid5 0 7
      [("[2,3]-7-Mid_City".toList, 2, 3), ("[1,4]-7-Mid_City".toList, 1, 4)]
      (by decide) (by decide) (by simp) (by decide)
  refine ⟨g1, err, d, hrun, hlook, Prod.ext ?_ ?_, Prod.ext ?_ ?_⟩
  · have ha := h1.1
    have hb := h1.2 1 (by simp)
    simp at ha
    omega
  · have ha := h2.1
    have hb := h2.2 3 (by simp)
    simp at ha
    omega
  · have ha := h3.1
    have hb := h3.2 2 (by simp)
    simp at ha
    omega
  · have ha := h4.1
    have hb := h4.2 4 (by simp)
    simp at ha
    omega

/-- C4 (amended): for every float value `v` other than NaN (the infinities included),
`convertToLMHSymbol` returns `L` exactly when `v < 35`, `M` exactly when `35 <= v < 65` and
`H` exactly when `v >= 65`; for a finite value these are the comparisons of the number it
denotes.  In particular the floats 34.999f, 35, 64.999f, 65 and 100 give `L`, `M`, `M`, `H`
and `H`. -/
theorem convertToLMHSymbol_thresholds (v : FloatVal) (hv : v ≠ .nan) :
    (convertToLMHSymbol v = 'L' ↔ v.lt 35 = true) ∧
    (convertToLMHSymbol v = 'M' ↔ v.ge 35 = true ∧ v.lt 65 = true) ∧
    (convertToLMHSymbol v = 'H' ↔ v.ge 65 = true) ∧
    (∀ q : ℚ, (convertToLMHSymbol (.finite q) = 'L' ↔ q < 35) ∧
      (convertToLMHSymbol (.finite q) = 'M' ↔ 35 ≤ q ∧ q < 65) ∧
      (convertToLMHSymbol (.finite q) = 'H' ↔ 65 ≤ q)) ∧
    convertToLMHSymbol (roundFloat (34999 / 1000)) = 'L' ∧
    convertToLMHSymbol (.finite 35) = 'M' ∧
    convertToLMHSymbol (roundFloat (64999 / 1000)) = 'M' ∧
    convertToLMHSymbol (.finite 65) = 'H' ∧
    convertToLMHSymbol (.finite 100) = 'H' := by
  have hfin : ∀ q : ℚ, (convertToLMHSymbol (.finite q) = 'L' ↔ q < 35) ∧
      (convertToLMHSymbol (.finite q) = 'M' ↔ 35 ≤ q ∧ q < 65) ∧
      (convertToLMHSymbol (.finite q) = 'H' ↔ 65 ≤ q) := by
    intro q
    refine ⟨?_, ?_, ?_⟩
    · by_cases h1 : q < 35
      · simp [convertToLMHSymbol, FloatVal.lt, h1]
      · by_cases h2 : q < 65 <;> simp [convertToLMHSymbol, FloatVal.lt, h1, h2]
    · by_cases h1 : q < 35
      · simp [convertToLMHSymbol, FloatVal.lt, h1, not_le.mpr h1]
      · by_cases h2 : q < 65 <;>
          simp [convertToLMHSymbol, FloatVal.lt, h1, h2, not_lt.mp h1]
    · by_cases h1 : q < 35
      · have h3 : ¬ (65 ≤ q) := by intro h; linarith
        simp [convertToLMHSymbol, FloatVal.lt, h1, h3]
      · by_cases h2 : q < 65
        · simp [convertToLMHSymbol, FloatVal.lt, h1, h2, not_le.mpr h2]
        · simp [convertToLMHSymbol, FloatVal.lt, h1, h2, not_lt.mp h2]
  refine ⟨?_, ?_, ?_, hfin, by decide!, by decide!, by decide!, by decide!, by decide!⟩
  · cases v with
    | finite q => simpa [FloatVal.lt] using (hfin q).1
    | posInf => simp [convertToLMHSymbol, FloatVal.lt]
    | negInf => simp [convertToLMHSymbol, FloatVal.lt]
    | nan => exact absurd rfl hv
  · cases v with
    | finite q => simpa [FloatVal.lt, FloatVal.ge] using (hfin q).2.1
    | posInf => simp [convertToLMHSymbol, FloatVal.lt, FloatVal.ge]
    | negInf => simp [convertToLMHSymbol, FloatVal.lt, FloatVal.ge]
    | nan => exact absurd rfl hv
  · cases v with
    | finite q => simpa [FloatVal.ge] using (hfin q).2.2
    | posInf => simp [convertToLMHSymbol, FloatVal.lt, FloatVal.ge]
    | negInf => simp [convertToLMHSymbol, FloatVal.lt, FloatVal.ge]
    | nan => exact absurd rfl hv

/-- C4, witness: the value 35 is a float other than NaN and is classified `M`. -/
theorem convertToLMHSymbol_thresholds_witness :
    (convertToLMHSymbol (.finite 35) = 'M' ↔
      (FloatVal.finite 35).ge 35 = true ∧ (FloatVal.finite 35).lt 65 = true) ∧
    convertToLMHSymbol (.finite 35) = 'M' :=
  ⟨(convertToLMHSymbol_thresholds (.finite 35) (by decide)).2.1,
   (convertToLMHSymbol_thresholds (.finite 35) (by decide)).2.2.2.2.2.1⟩

/-- C4, counterexample: for the value NaN the function returns `H` although `v >= 65` is
false (every comparison with NaN is); `displaySummary` does classify NaN: with the ranges
`5-9` of the shifted configuration both averages of city 1 are NaN and get the symbol `H`. -/
theorem nan_classified_high :
    convertToLMHSymbol .nan = 'H' ∧ FloatVal.nan.ge 65 = false ∧
    ((optionOne shiftedFiles "config.txt".toList {}).registry.bind (lookup 1)).map
        (fun d => (d.avgCloudCover, convertToLMHSymbol d.avgCloudCover,
          d.avgAtmosphericPressure, convertToLMHSymbol d.avgAtmosphericPressure)) =
      some (.nan, 'H', .nan, 'H') := by
  decide!

/-- C5 (the code at a failing input): option 1 run on `second.txt` from the initial globals
leaves a registry with city 7 only; run after a load of `first.txt` it leaves city 9 of the
earlier load in the registry as well (its stale box lies outside the new 2 x 2 grid, the
scan is empty and its averages become NaN).  `cityDataMap` is never cleared. -/
theorem reload_keeps_earlier_cities :
    (optionOne reloadFiles "second.txt".toList {}).registry =
      some [(7, { lowerLeftCoord := (0, 0), topRightCoord := (0, 0) })] ∧
    ((optionOne reloadFiles "first.txt".toList {}).andThen
        (optionOne reloadFiles "second.txt".toList)).registry =
      some [(7, { lowerLeftCoord := (0, 0), topRightCoord := (0, 0) }),
            (9, { lowerLeftCoord := (4, 4), topRightCoord := (4, 4),
                  avgAtmosphericPressure := .nan, avgCloudCover := .nan })] := by
  with_unfolding_all decide

/-- C6 (amended): when both ranges start at 0 and the ingestion of option 1 has built the
registry from an empty one on the allocated grid, every city of the registry has a
registered cell that the scan of the aggregation step visits; the iteration of the step for
the city reads all its cells and returns, and the cell count it divides the two sums by is
positive.  There is no guard for a zero count: for any globals and any entry, a scan that
visits no cell divides 0.0 by 0 and gives NaN (not 0.0) for both averages. -/
theorem scan_visits_registered_cell (files : Files) (paths : FilePaths) (g0 g : Globals)
    (err : List ErrorLine) (hx : g0.gridXmin = 0) (hy : g0.gridYmin = 0)
    (hempty : g0.cityDataMap = []) (halloc : g0.Allocated)
    (h : ingest files paths g0 = .returned g err) :
    (∀ c ∈ g.cityDataMap,
      (∃ cx cy : Int, 0 ≤ cx ∧ cx ≤ g.gridXmax - g.gridXmin ∧ 0 ≤ cy ∧
        cy ≤ g.gridYmax - g.gridYmin ∧
        c.2.lowerLeftCoord.1 ≤ cx ∧ cx ≤ c.2.topRightCoord.1 ∧
        c.2.lowerLeftCoord.2 ≤ cy ∧ cy ≤ c.2.topRightCoord.2 ∧
        (cx, cy) ∈ scanCells g c.2) ∧
      ∃ t, accumulate g.grid (scanCells g c.2) {} = .ok t ∧
        t.totalCells = (scanCells g c.2).length ∧ 0 < t.totalCells ∧
        aggregateCity g c.2 =
          .ok { c.2 with
                avgAtmosphericPressure := fdiv t.totalAtmosphericPressure t.totalCells
                avgCloudCover := fdiv t.totalCloudCover t.totalCells }) ∧
    (∀ (g1 : Globals) (d : CityData), scanCells g1 d = [] →
      aggregateCity g1 d =
        .ok { d with avgAtmosphericPressure := .nan, avgCloudCover := .nan }) := by
  have hinv0 : g0.CitiesHaveCell := by
    intro c hc
    rw [hempty] at hc
    cases hc
  obtain ⟨hinv, hx1, hy1⟩ := ingest_citiesHaveCell files paths g0 g err h hinv0
  have hallocg : g.Allocated := ingest_allocated files paths g0 g err h halloc
  rw [hx] at hx1
  rw [hy] at hy1
  have hcell : ∀ c ∈ g.cityDataMap, ∃ cx cy : Int, 0 ≤ cx ∧ cx ≤ g.gridXmax - g.gridXmin ∧
      0 ≤ cy ∧ cy ≤ g.gridYmax - g.gridYmin ∧
      c.2.lowerLeftCoord.1 ≤ cx ∧ cx ≤ c.2.topRightCoord.1 ∧
      c.2.lowerLeftCoord.2 ≤ cy ∧ cy ≤ c.2.topRightCoord.2 ∧
      (cx, cy) ∈ scanCells g c.2 := by
    intro c hc
    obtain ⟨cx, cy, h1, h2, h3, h4, h5, h6, h7, h8⟩ := hinv c hc
    refine ⟨cx, cy, h1, h2, h3, h4, h5, h6, h7, h8, ?_⟩
    rw [mem_scanCells, hx1, hy1]
    rw [hx1] at h2
    rw [hy1] at h4
    omega
  refine ⟨fun c hc => ⟨hcell c hc, ?_⟩, ?_⟩
  · obtain ⟨cx, cy, _, _, _, _, _, _, _, _, hmem⟩ := hcell c hc
    obtain ⟨t, ht⟩ := accumulate_ok g.grid (scanCells g c.2) {} (fun p hp => by
      have hp2 := scanCells_bounds g c.2 p.1 p.2 hp
      exact Globals.cell_of_allocated g p.1 p.2 hallocg hp2.1 hp2.2.1 hp2.2.2.1 hp2.2.2.2)
    have hlen : 0 < (scanCells g c.2).length := List.length_pos_of_mem hmem
    have hcount := accumulate_totalCells g.grid _ _ _ ht
    simp only at hcount
    refine ⟨t, ht, by omega, by omega, ?_⟩
    simp only [aggregateCity, ht]
  · intro g1 d hscan
    simp only [aggregateCity, hscan, accumulate]
    have h00 : fdiv (FloatVal.finite 0) 0 = FloatVal.nan := by decide!
    simp only [h00]

/-- C6, witness: in the scenario of the specification the ingestion returns and, for
every registered city, the aggregation reads its cells and divides by a positive count. -/
theorem scan_visits_registered_cell_witness :
    ∃ g err,
      ingest scenarioFiles { citylocFilePath := "citylocation.txt".toList,
                             cloudcoverageFilePath := "cloudcover.txt".toList,
                             pressureFilePath := "pressure.txt".toList } grid5 =
        .returned g err ∧
      ∀ c ∈ g.cityDataMap,
        ∃ t, accumulate g.grid (scanCells g c.2) {} = .ok t ∧ 0 < t.totalCells := by
  obtain ⟨g, err, h⟩ := Outcome.returned_of_globals
    (ingest scenarioFiles { citylocFilePath := "citylocation.txt".toList,
                            cloudcoverageFilePath := "cloudcover.txt".toList,
                            pressureFilePath := "pressure.txt".toList } grid5)
    (by decide!)
  refine ⟨g, err, h, fun c hc => ?_⟩
  obtain ⟨t, ht, _, hpos, _⟩ :=
    ((scan_visits_registered_cell scenarioFiles _ grid5 g err rfl rfl rfl (by decide) h).1
      c hc).2
  exact ⟨t, ht, hpos⟩

/-- C6, counterexample: with ranges `5-9`, the city registered by `[7,7]-1-Big_City` has a
registered cell, yet the scan of the aggregation step visits no cell, and the division by
the zero count gives NaN, not 0.0, for both averages. -/
theorem scan_empty_when_range_shifted :
    (processLines 0 ["[7,7]-1-Big_City".toList] grid59).globals.map
        (fun g => g.cityDataMap.map fun c => (c.1, scanCells g c.2, aggregateCity g c.2)) =
      some [(1, [], .ok { lowerLeftCoord := (2, 2), topRightCoord := (2, 2),
                          avgAtmosphericPressure := .nan, avgCloudCover := .nan })] := by
  with_unfolding_all decide

/-- C7 (the code at a failing input): the line `[2 2]-50` has no comma before the dash, so
`xPos` and `yPos` keep their initial -1; the payload block still runs and, for the
cloud-cover file, assigns to `grid[-1][-1]`, whatever the globals are. -/
theorem missing_comma_accesses_outside_grid (g : Globals) :
    processCityData "[2 2]-50".toList 1 g = .invalidAccess (-1) (-1) := by
  rfl

/-- C8 (amended): for every line with a first dash in which a numeric field that
`processCityData` converts is not parseable by `stoi` (`x` or `y` when a comma precedes the
dash; the city id or the percentage when the coordinate block did not reject the line),
`processCityData` leaves through the exception of `stoi` (`invalid_argument` or
`out_of_range`) with the globals exactly as before the line and nothing written to `cerr`;
the exception is not caught, so it also leaves the loop over the file and the lines after
it are not processed. -/
theorem parse_failure_leaves_globals (g : Globals) (line : Str) (fileDataType : Int)
    (rest : List Str) (dashPosition : Nat) (e : Exception)
    (hdash : find line '-' = some dashPosition)
    (hfield :
      (∃ commaPosition, find (coordinateText line dashPosition) ',' = some commaPosition ∧
        (stoi ((coordinateText line dashPosition).take commaPosition) = .error e ∨
          ((∃ x, stoi ((coordinateText line dashPosition).take commaPosition) = .ok x) ∧
            stoi ((coordinateText line dashPosition).drop (commaPosition + 1)) = .error e))) ∨
      ((∃ xPos yPos,
          extractCoordinates g (coordinateText line dashPosition) = .position xPos yPos) ∧
        ((∃ hyphenPosition,
            find (payloadText line dashPosition) '-' = some hyphenPosition ∧
            stoi ((payloadText line dashPosition).take hyphenPosition) = .error e) ∨
          (find (payloadText line dashPosition) '-' = none ∧
            stoi (payloadText line dashPosition) = .error e)))) :
    (e = .invalidArgument ∨ e = .outOfRange) ∧
    processCityData line fileDataType g = .thrown e g [] ∧
    processLines fileDataType (line :: rest) g = .thrown e g [] := by
  have hthrown : processCityData line fileDataType g = .thrown e g [] := by
    rcases hfield with ⟨commaPosition, hcomma, hxy⟩ | ⟨⟨xPos, yPos, hpos⟩, hpayload⟩
    · rcases hxy with hx | ⟨⟨x, hx⟩, hy⟩
      · simp only [processCityData, hdash, extractCoordinates, hcomma, hx]
      · simp only [processCityData, hdash, extractCoordinates, hcomma, hx, hy]
    · rcases hpayload with ⟨hyphenPosition, hhyphen, hid⟩ | ⟨hbare, hv⟩
      · simp only [processCityData, hdash, hpos, processPayload, hhyphen, hid]
      · simp only [processCityData, hdash, hpos, processPayload, hbare, hv]
  exact ⟨(processCityData_thrown line fileDataType g g e [] hthrown).1, hthrown,
    processLines_cons_thrown fileDataType line rest g g e [] hthrown⟩

/-- C8, witness: the pressure record `[2,x]-50` (non-numeric `y`) followed by a valid
record. -/
theorem parse_failure_leaves_globals_witness :
    processCityData "[2,x]-50".toList 2 grid5 = .thrown .invalidArgument grid5 [] ∧
    processLines 2 ["[2,x]-50".toList, "[2,2]-50".toList] grid5 =
      .thrown .invalidArgument grid5 [] :=
  (parse_failure_leaves_globals grid5 "[2,x]-50".toList 2 ["[2,2]-50".toList] 5
    .invalidArgument (by decide)
    (Or.inl ⟨1, by decide, Or.inr ⟨⟨2, by decide⟩, by decide⟩⟩)).2

/-- C8, counterexample: after the unparseable record `[2,x]-50` the next line is not
processed: the run over the two lines differs from the run over the second line alone, which
returns with pressure 50 stored in `grid[2][2]`. -/
theorem parse_failure_stops_the_file :
    processLines 2 ["[2,x]-50".toList, "[2,2]-50".toList] grid5 ≠
      processLines 2 ["[2,2]-50".toList] grid5 ∧
    ((processLines 2 ["[2,2]-50".toList] grid5).globals.bind
        fun g => (g.grid.cell 2 2).map (·.atmosphericPressure)) = some 50 ∧
    (processLines 2 ["[2,x]-50".toList, "[2,2]-50".toList] grid5).globals = none := by
  with_unfolding_all decide

/-- C9 (the code at a failing input): in the cloud-cover record `[1,1]--5` the minus sign of
the payload -5 is taken for the hyphen of a city record, `stoi` is called on the empty text
before it and throws `invalid_argument`: no invalid-value error is written and nothing is
stored. -/
theorem negative_percentage_throws :
    processCityData "[1,1]--5".toList 1 grid5 = .thrown .invalidArgument grid5 [] ∧
    processCityData "[1,1]--5".toList 2 grid5 = .thrown .invalidArgument grid5 [] := by
  decide

/-- C10 (amended): in the scenario (ranges `0-4`, the location record `[2,2]-7-Mid_City`
and the nine pressure records), option 1 run from the initial globals leaves city 7 with the
box `(2,2)-(2,2)` and the average pressure `3640889 / 131072` (27.77777862548828125): the
float sum of the nine cells of the 3 x 3 block centred at `(2, 2)` is 250, and the float
division by 9 gives the binary32 value nearest to `250 / 9`, less than one millionth away
from it. -/
theorem scenario_average_pressure :
    (optionOne scenarioFiles "config.txt".toList {}).registry =
      some [(7, { lowerLeftCoord := (2, 2), topRightCoord := (2, 2),
                  avgAtmosphericPressure := .finite (3640889 / 131072),
                  avgCloudCover := .finite 0 })] ∧
    scanCells grid5 { lowerLeftCoord := (2, 2), topRightCoord := (2, 2) } =
      [(1, 1), (1, 2), (1, 3), (2, 1), (2, 2), (2, 3), (3, 1), (3, 2), (3, 3)] ∧
    roundFloat (250 / 9) = .finite (3640889 / 131072) ∧
    |(3640889 / 131072 : ℚ) - 250 / 9| < 1 / 1000000 := by
  refine ⟨by decide!, by decide!, by decide!, ?_⟩
  rw [abs_lt]
  constructor <;> norm_num

/-- C10, counterexample: the average pressure of city 7 in the scenario is not exactly
`250 / 9`, which is no binary32 value: the float division rounds it. -/
theorem scenario_average_not_exact :
    (optionOne scenarioFiles "config.txt".toList {}).registry ≠
      some [(7, { lowerLeftCoord := (2, 2), topRightCoord := (2, 2),
                  avgAtmosphericPressure := .finite (250 / 9),
                  avgCloudCover := .finite 0 })] ∧
    ((optionOne scenarioFiles "config.txt".toList {}).registry.bind (lookup 7)).map
        (·.avgAtmosphericPressure) ≠ some (.finite (250 / 9)) := by
  decide!

/-- C11: for every pair of characters, `rainchance` returns a multiple of 10 between 0 and
90; it returns 0 exactly when one of the two symbols is not `L`, `M` or `H`; on the nine
pairs over `L`, `M`, `H` it is one-to-one and takes each of the values 10, 20, ..., 90;
pressure `L` with cloud `H` gives 90 and pressure `H` with cloud `L` gives 10. -/
theorem rainchance_table (acc ap : Char) :
    rainchance acc ap ∈ [(0 : Int), 10, 20, 30, 40, 50, 60, 70, 80, 90] ∧
    (rainchance acc ap = 0 ↔
      ¬ ((acc = 'L' ∨ acc = 'M' ∨ acc = 'H') ∧ (ap = 'L' ∨ ap = 'M' ∨ ap = 'H'))) ∧
    (∀ acc2 ap2 : Char, (acc = 'L' ∨ acc = 'M' ∨ acc = 'H') →
      (ap = 'L' ∨ ap = 'M' ∨ ap = 'H') → (acc2 = 'L' ∨ acc2 = 'M' ∨ acc2 = 'H') →
      (ap2 = 'L' ∨ ap2 = 'M' ∨ ap2 = 'H') →
      rainchance acc ap = rainchance acc2 ap2 → acc = acc2 ∧ ap = ap2) ∧
    (∀ v ∈ [(10 : Int), 20, 30, 40, 50, 60, 70, 80, 90],
      ∃ c p : Char, (c = 'L' ∨ c = 'M' ∨ c = 'H') ∧ (p = 'L' ∨ p = 'M' ∨ p = 'H') ∧
        rainchance c p = v) ∧
    rainchance 'H' 'L' = 90 ∧ rainchance 'L' 'H' = 10 := by
  refine ⟨?_, ?_, ?_, ?_, by decide, by decide⟩
  · by_cases a1 : acc = 'L' <;> by_cases a2 : acc = 'M' <;> by_cases a3 : acc = 'H' <;>
      by_cases p1 : ap = 'L' <;> by_cases p2 : ap = 'M' <;> by_cases p3 : ap = 'H' <;>
      simp [rainchance, a1, a2, a3, p1, p2, p3]
  · by_cases a1 : acc = 'L' <;> by_cases a2 : acc = 'M' <;> by_cases a3 : acc = 'H' <;>
      by_cases p1 : ap = 'L' <;> by_cases p2 : ap = 'M' <;> by_cases p3 : ap = 'H' <;>
      simp [rainchance, a1, a2, a3, p1, p2, p3]
  · intro acc2 ap2 ha hp ha2 hp2
    rcases ha with rfl | rfl | rfl <;> rcases hp with rfl | rfl | rfl <;>
      rcases ha2 with rfl | rfl | rfl <;> rcases hp2 with rfl | rfl | rfl <;> decide
  · intro v hv
    simp only [List.mem_cons, List.mem_singleton, List.mem_nil_iff, or_false] at hv
    rcases hv with rfl | rfl | rfl | rfl | rfl | rfl | rfl | rfl | rfl
    · exact ⟨'L', 'H', by decide, by decide, by decide⟩
    · exact ⟨'M', 'H', by decide, by decide, by decide⟩
    · exact ⟨'H', 'H', by decide, by decide, by decide⟩
    · exact ⟨'L', 'M', by decide, by decide, by decide⟩
    · exact ⟨'M', 'M', by decide, by decide, by decide⟩
    · exact ⟨'H', 'M', by decide, by decide, by decide⟩
    · exact ⟨'L', 'L', by decide, by decide, by decide⟩
    · exact ⟨'M', 'L', by decide, by decide, by decide⟩
    · exact ⟨'H', 'L', by decide, by decide, by decide⟩

/-- C12 (amended): for all integers `min` in `0..INT_MAX` and `max` in `INT_MIN..INT_MAX`
(a negative `max` included), written in decimal, the configuration line
`GridX_IdxRange=<min>-<max>` is parsed to `gridXmin = min`, `gridXmax = max` with the Y range
and the rest of the globals unchanged, and `GridY_IdxRange=<min>-<max>` to `gridYmin = min`,
`gridYmax = max` with the X range and the rest unchanged. -/
theorem range_line_parsed (g : Globals) (min max : Int) (hmin0 : 0 ≤ min)
    (hmin1 : min ≤ INT_MAX) (hmax0 : INT_MIN ≤ max) (hmax1 : max ≤ INT_MAX) :
    parseRangeLine ("GridX_IdxRange=".toList ++ (intText min ++ '-' :: intText max)) g =
      .returned { g with gridXmin := min, gridXmax := max } [] ∧
    parseRangeLine ("GridY_IdxRange=".toList ++ (intText min ++ '-' :: intText max)) g =
      .returned { g with gridYmin := min, gridYmax := max } [] := by
  have hnil : ∀ (c : Char) (t : Str), ([] : Str) = c :: t → c.isDigit = false := by
    intro c t h; cases h
  have hmin : stoi (intText min) = .ok min := by
    have := stoi_intText min [] hnil (by simp only [INT_MIN]; omega) hmin1
    simpa using this
  have hmax : stoi (intText max) = .ok max := by
    have := stoi_intText max [] hnil hmax0 hmax1
    simpa using this
  have ha := find_intText_of_nonneg min hmin0
  exact ⟨parseRangeLine_gridX g _ _ min max ha hmin hmax,
    parseRangeLine_gridY g _ _ min max ha hmin hmax⟩

/-- C12, witness: the lines `GridX_IdxRange=3-12` and `GridY_IdxRange=3-12`. -/
theorem range_line_parsed_witness :
    parseRangeLine "GridX_IdxRange=3-12".toList {} =
      .returned { gridXmin := 3, gridXmax := 12 } [] ∧
    parseRangeLine "GridY_IdxRange=3-12".toList {} =
      .returned { gridYmin := 3, gridYmax := 12 } [] :=
  range_line_parsed {} 3 12 (by decide) (by decide) (by decide) (by decide)

/-- C12, counterexample: the line `GridX_IdxRange=-5-5` (`min = -5`, `max = 5`) is not
parsed to `gridXmin = -5`, `gridXmax = 5`: the minus sign of `min` is the first dash of the
text after `=`, `stoi` is called on the empty text before it and throws; the same holds for
the Y line.  A value outside the range of `int` makes `stoi` throw as well. -/
theorem range_line_not_parsed :
    "GridX_IdxRange=".toList ++ (intText (-5) ++ '-' :: intText 5) =
      "GridX_IdxRange=-5-5".toList ∧
    parseRangeLine "GridX_IdxRange=-5-5".toList {} = .thrown .invalidArgument {} [] ∧
    parseRangeLine "GridY_IdxRange=-5-5".toList {} = .thrown .invalidArgument {} [] ∧
    parseRangeLine "GridX_IdxRange=0-2147483648".toList {} = .thrown .outOfRange {} [] := by
  decide

/-- C13 (amended): for every in-bounds record `[x,y]-v` with a bare integer payload `v` (no
hyphen in the payload) processed on the allocated grid with source kind cloud cover (1), the
call returns and the only change of the state is that `cloudCover` of the addressed cell
becomes `static_cast<float>(v)`, the float nearest to `v`, which is `v` itself when
`0 <= v <= 16777216` and so for every percentage: the other members of that cell, every
other cell, the city registry and the ranges are unchanged; with source kind pressure (2)
the same holds for `atmosphericPressure`. -/
theorem percentage_record_frame (g : Globals) (line : Str) (fileDataType : Int)
    (dashPosition commaPosition : Nat) (x y v : Int) (halloc : g.Allocated)
    (hdash : find line '-' = some dashPosition)
    (hcomma : find (coordinateText line dashPosition) ',' = some commaPosition)
    (hx : stoi ((coordinateText line dashPosition).take commaPosition) = .ok x)
    (hy : stoi ((coordinateText line dashPosition).drop (commaPosition + 1)) = .ok y)
    (hin : g.gridXmin ≤ x ∧ x ≤ g.gridXmax ∧ g.gridYmin ≤ y ∧ y ≤ g.gridYmax)
    (hbare : find (payloadText line dashPosition) '-' = none)
    (hv : stoi (payloadText line dashPosition) = .ok v)
    (hkind : fileDataType = 1 ∨ fileDataType = 2) :
    (∃ g1 err old,
      processCityData line fileDataType g = .returned g1 err ∧
      g.grid.cell (x - g.gridXmin) (y - g.gridYmin) = some old ∧
      g1.grid.cell (x - g.gridXmin) (y - g.gridYmin) =
        some (if fileDataType = 1 then { old with cloudCover := floatOfInt v }
              else { old with atmosphericPressure := floatOfInt v }) ∧
      (∀ x1 y1 : Int, (x1, y1) ≠ (x - g.gridXmin, y - g.gridYmin) →
        g1.grid.cell x1 y1 = g.grid.cell x1 y1) ∧
      g1.cityDataMap = g.cityDataMap ∧
      g1.gridXmin = g.gridXmin ∧ g1.gridXmax = g.gridXmax ∧
      g1.gridYmin = g.gridYmin ∧ g1.gridYmax = g.gridYmax) ∧
    (0 ≤ v → v ≤ 16777216 → floatOfInt v = (v : ℚ)) := by
  refine ⟨?_, floatOfInt_exact v⟩
  have hnot : ¬ (x < g.gridXmin ∨ x > g.gridXmax ∨ y < g.gridYmin ∨ y > g.gridYmax) := by
    omega
  have hcoord := extractCoordinates_of_parsed g _ _ x y hcomma hx hy
  rw [if_neg hnot] at hcoord
  obtain ⟨c0, hc0⟩ := Globals.cell_of_allocated g (x - g.gridXmin) (y - g.gridYmin) halloc
    (by omega) (by omega) (by omega) (by omega)
  rcases hkind with hk | hk
  · subst hk
    have hmod : ∃ grid1, g.grid.modifyCell (x - g.gridXmin) (y - g.gridYmin)
        (fun c => { c with cloudCover := floatOfInt v }) = some grid1 := by
      simp [Grid.modifyCell, hc0]
    obtain ⟨grid1, hmod⟩ := hmod
    obtain ⟨c1, hold, hnew⟩ := Grid.cell_modifyCell_self _ _ _ _ _ hmod
    refine ⟨{ g with grid := grid1 }, if v < 0 ∨ v > 100 then [.invalidValue] else [], c1,
      ?_, hold, ?_, ?_, rfl, rfl, rfl, rfl, rfl⟩
    · simp only [processCityData, hdash, hcoord, processPayload, hbare, hv, hmod, if_true]
    · simpa using hnew
    · intro x1 y1 hne
      exact Grid.cell_modifyCell_other _ _ _ _ x1 y1 _ hmod hne
  · subst hk
    have hmod : ∃ grid1, g.grid.modifyCell (x - g.gridXmin) (y - g.gridYmin)
        (fun c => { c with atmosphericPressure := floatOfInt v }) = some grid1 := by
      simp [Grid.modifyCell, hc0]
    obtain ⟨grid1, hmod⟩ := hmod
    obtain ⟨c1, hold, hnew⟩ := Grid.cell_modifyCell_self _ _ _ _ _ hmod
    refine ⟨{ g with grid := grid1 }, if v < 0 ∨ v > 100 then [.invalidValue] else [], c1,
      ?_, hold, ?_, ?_, rfl, rfl, rfl, rfl, rfl⟩
    · simp [processCityData, hdash, hcoord, processPayload, hbare, hv, hmod]
    · simpa using hnew
    · intro x1 y1 hne
      exact Grid.cell_modifyCell_other _ _ _ _ x1 y1 _ hmod hne

/-- C13, witness: the cloud-cover record `[2,3]-50` on the 5 x 5 grid of the ranges `0-4`
stores exactly 50. -/
theorem percentage_record_frame_witness :
    ∃ g1 err old,
      processCityData "[2,3]-50".toList 1 grid5 = .returned g1 err ∧
      grid5.grid.cell 2 3 = some old ∧
      g1.grid.cell 2 3 = some { old with cloudCover := 50 } ∧
      (∀ x1 y1 : Int, (x1, y1) ≠ (2, 3) → g1.grid.cell x1 y1 = grid5.grid.cell x1 y1) ∧
      g1.cityDataMap = grid5.cityDataMap := by
  obtain ⟨⟨g1, err, old, h1, h2, h3, h4, h5, _⟩, hexact⟩ :=
    percentage_record_frame grid5 "[2,3]-50".toList 1 5 1 2 3 50 (by decide) (by decide)
      (by decide) (by decide) (by decide) (by decide) (by decide) (by decide) (by decide)
  have h50 : floatOfInt 50 = 50 := by
    have := hexact (by decide) (by decide)
    simpa using this
  rw [h50] at h3
  exact ⟨g1, err, old, h1, h2, by simpa using h3, h4, h5⟩

/-- C13, counterexample: the cloud-cover record `[2,3]-16777217` on the 5 x 5 grid does not
leave 16777217 in `cloudCover` of the addressed cell: the conversion to `float` rounds the
payload and 16777216 is stored. -/
theorem large_payload_rounded :
    ((processCityData "[2,3]-16777217".toList 1 grid5).globals.bind
        fun g => (g.grid.cell 2 3).map (·.cloudCover)) = some 16777216 ∧
    ((processCityData "[2,3]-16777217".toList 1 grid5).globals.bind
        fun g => (g.grid.cell 2 3).map (·.cloudCover)) ≠ some 16777217 := by
  decide!

/-- C14: for every grid range and every registry entry (any bounding box, the
`INT_MAX`/`INT_MIN` sentinels included), every index `(x, y)` the aggregation loop reads
satisfies `0 <= x <= gridXmax - gridXmin` and `0 <= y <= gridYmax - gridYmin`; on the array
allocated for the ranges it is the index of a cell, so the iteration for the entry reads all
its cells and ends with the two averages, without an access outside the array. -/
theorem aggregation_reads_inside_grid (g : Globals) (data : CityData) (x y : Int)
    (hread : (x, y) ∈ scanCells g data) :
    (0 ≤ x ∧ x ≤ g.gridXmax - g.gridXmin ∧ 0 ≤ y ∧ y ≤ g.gridYmax - g.gridYmin) ∧
    (g.Allocated →
      (∃ c, g.grid.cell x y = some c) ∧ ∃ d, aggregateCity g data = .ok d) := by
  have hb := scanCells_bounds g data x y hread
  refine ⟨hb, fun halloc => ⟨?_, ?_⟩⟩
  · exact Globals.cell_of_allocated g x y halloc hb.1 hb.2.1 hb.2.2.1 hb.2.2.2
  · obtain ⟨t, ht⟩ := accumulate_ok g.grid (scanCells g data) {} (fun p hp => by
      have hp2 := scanCells_bounds g data p.1 p.2 hp
      exact Globals.cell_of_allocated g p.1 p.2 halloc hp2.1 hp2.2.1 hp2.2.2.1 hp2.2.2.2)
    exact ⟨{ data with
             avgAtmosphericPressure := fdiv t.totalAtmosphericPressure t.totalCells
             avgCloudCover := fdiv t.totalCloudCover t.totalCells },
      by simp only [aggregateCity, ht]⟩

/-- C14, witness: on the 5 x 5 grid of the ranges `0-4`, the corner city with the box
`(4,4)-(4,4)` has the index `(4, 4)` among those read; it lies in the array although the
expanded box reaches index 5. -/
theorem aggregation_reads_inside_grid_witness :
    (4, 4) ∈ scanCells grid5 { lowerLeftCoord := (4, 4), topRightCoord := (4, 4) } ∧
    (∃ c, grid5.grid.cell 4 4 = some c) ∧
    ∃ d, aggregateCity grid5 { lowerLeftCoord := (4, 4), topRightCoord := (4, 4) } = .ok d :=
  ⟨by decide,
   (aggregation_reads_inside_grid grid5 { lowerLeftCoord := (4, 4), topRightCoord := (4, 4) }
      4 4 (by decide)).2 (by decide)⟩

/-- C15: for every line whose payload (the text after the first dash) contains another
dash, `processCityData` does the same for every source kind: the outcomes for two values of
`fileDataType` are equal.  The text after the second dash has no influence on what the call
does to the state: with another label in its place the outcome is the same up to the lines
written to `cerr`.  When the line is read as an in-bounds city record on the allocated
grid, the cell is marked as a city with the id and the bounding box of the city is
extended, also for the source kinds cloud cover and pressure. -/
theorem record_kind_from_payload (g : Globals) (line label : Str) (kind1 kind2 : Int)
    (dashPosition hyphenPosition : Nat)
    (hdash : find line '-' = some dashPosition)
    (hhyphen : find (payloadText line dashPosition) '-' = some hyphenPosition) :
    processCityData line kind1 g = processCityData line kind2 g ∧
    (processCityData
        (line.take dashPosition ++
          '-' :: ((payloadText line dashPosition).take hyphenPosition ++ '-' :: label))
        kind2 g).withoutErr = (processCityData line kind1 g).withoutErr ∧
    (∀ cityID xPos yPos : Int, g.Allocated →
      readCityRecord g line = some (cityID, xPos, yPos) →
      ∃ g1 err c, processCityData line kind1 g = .returned g1 err ∧
        g1.grid.cell xPos yPos = some c ∧ c.isCity = true ∧ c.cityId = cityID ∧
        g1.cityDataMap =
          assign cityID (extendBox (entry cityID g.cityDataMap) xPos yPos)
            g.cityDataMap) := by
  obtain ⟨ha, hline⟩ := find_some_split line '-' dashPosition hdash
  obtain ⟨hb, hpayload⟩ := find_some_split (payloadText line dashPosition) '-'
    hyphenPosition hhyphen
  have hform : line = line.take dashPosition ++ '-' ::
      ((payloadText line dashPosition).take hyphenPosition ++ '-' ::
        (payloadText line dashPosition).drop (hyphenPosition + 1)) := by
    have hp : line.drop (dashPosition + 1) = payloadText line dashPosition := rfl
    rw [← hpayload, ← hp, ← hline]
  have e1 := processCityData_two_dashes g (line.take dashPosition)
    ((payloadText line dashPosition).take hyphenPosition)
    ((payloadText line dashPosition).drop (hyphenPosition + 1)) kind1 ha hb
  have e2 := processCityData_two_dashes g (line.take dashPosition)
    ((payloadText line dashPosition).take hyphenPosition)
    ((payloadText line dashPosition).drop (hyphenPosition + 1)) kind2 ha hb
  have e3 := processCityData_two_dashes g (line.take dashPosition)
    ((payloadText line dashPosition).take hyphenPosition) label kind2 ha hb
  rw [← hform] at e1 e2
  refine ⟨e1.trans e2.symm, ?_, ?_⟩
  · rw [e1, e3]
    split
    · rfl
    · rfl
    · split
      · rfl
      · split <;> rfl
  · intro cityID xPos yPos halloc hrec
    exact processCityData_cityRecord_cell g line kind1 cityID xPos yPos halloc hrec

/-- C15, witness: the line `[2,2]-7-Mid_City` on the 5 x 5 grid: the same outcome for the
source kinds 0, 1 and 2, and the same state with the label `Big_City`. -/
theorem record_kind_from_payload_witness :
    processCityData "[2,2]-7-Mid_City".toList 0 grid5 =
      processCityData "[2,2]-7-Mid_City".toList 1 grid5 ∧
    processCityData "[2,2]-7-Mid_City".toList 0 grid5 =
      processCityData "[2,2]-7-Mid_City".toList 2 grid5 ∧
    (processCityData "[2,2]-7-Big_City".toList 2 grid5).withoutErr =
      (processCityData "[2,2]-7-Mid_City".toList 0 grid5).withoutErr :=
  ⟨(record_kind_from_payload grid5 "[2,2]-7-Mid_City".toList "Big_City".toList 0 1 5 1
      (by decide) (by decide)).1,
   (record_kind_from_payload grid5 "[2,2]-7-Mid_City".toList "Big_City".toList 0 2 5 1
      (by decide) (by decide)).1,
   (record_kind_from_payload grid5 "[2,2]-7-Mid_City".toList "Big_City".toList 0 2 5 1
      (by decide) (by decide)).2.1⟩

end Weather
